import Mathlib

/-! terraform-provider-acme: the wait loops and lifecycle operations of the bucket resource.

Shallow embedding of `internal/provider/cloud_acme_local_bucket_v1`
(`crd.go`, `resource.go`): the decoded custom resource, the readiness check
and poll callback of `waitReady`, the deletion wait of `Delete`, and `Create`, `Read`
and `Update`.

Conventions of the embedding.
* A Go pointer that may be nil is an `Option`.
* A Go run-time panic (nil dereference, index out of range) is `Except.error`
  of type `Panic`; it is not a Go `error` value. What the caller of a wait can
  still be handed when its callback panics, or when its context is cancelled,
  is given by `observedLoop` and `waitReadyObserved`.
* A Go `error` is a value of `GoError`; `nil` is `none`.
* A closure that assigns captured variables is a state-passing function.
* Wall-clock time is not modelled. The `timeout` handed to `RetryContext`
  is measured in polls: the number of callback invocations the deadline
  leaves room for.
-/

namespace Acme

/-! ## Data model (`crd.go`) -/

/-- Go run-time panics reachable in the embedded code. -/
inductive Panic where
  | nilDeref
  | indexOutOfRange
  deriving DecidableEq

/-- Go `error` values that flow through the wait loops. -/
inductive GoError where
  /-- an API status error for which `errors.IsNotFound` holds -/
  | notFound (msg : String)
  /-- any other error of the client or of decoding -/
  | other (msg : String)
  /-- `fmt.Errorf(msg)` with no wrapped cause -/
  | errorf (msg : String)
  /-- `fmt.Errorf(msg + ": %w", cause)` -/
  | wrapf (msg : String) (cause : GoError)
  /-- `*retry.TimeoutError` with a nil `LastError` -/
  | timeoutError
  /-- `*retry.TimeoutError` whose `LastError` is the given cause -/
  | timeoutErrorWith (lastError : GoError)
  deriving DecidableEq

/-- `err.Error()`. -/
def GoError.Error : GoError → String
  | .notFound msg => msg
  | .other msg => msg
  | .errorf msg => msg
  | .wrapf msg cause => msg ++ ": " ++ cause.Error
  | .timeoutError => "timeout while waiting for state to become 'success'"
  | .timeoutErrorWith lastError => lastError.Error

/-- `errors.IsNotFound(err)`: looks through `%w` wrapping for a not-found status. -/
def IsNotFound : GoError → Bool
  | .notFound _ => true
  | .wrapf _ cause => IsNotFound cause
  | _ => false

/-- One element of `K8sStatus.Conditions` (`crd.go` lines 28-31): both fields are `*string`. -/
structure Condition where
  Typ : Option String
  Status : Option String
  deriving DecidableEq

/-- `K8sStatus` (`crd.go` lines 25-32); `Conditions` is a pointer to a slice. -/
structure K8sStatus where
  Arn : Option String
  Conditions : Option (List Condition)
  deriving DecidableEq

/-- `K8sSpec` (`crd.go` lines 21-23). -/
structure K8sSpec where
  Region : String
  deriving DecidableEq

/-- The fields of `metav1.ObjectMeta` the provider reads or writes. -/
structure ObjectMeta where
  Name : String
  ResourceVersion : String
  Finalizers : List String
  deriving DecidableEq

/-- Per-operation timeouts (`timeouts.Value`), carried through unchanged. -/
structure Timeouts where
  create : Option String
  read : Option String
  update : Option String
  delete : Option String
  deriving DecidableEq

/-- `K8sCR` (`crd.go` lines 9-19). `types.String` is `Option String` (`none` is null,
`types.StringValue s` is `some s`). `Finalizer` is the field `resource.go` assigns at
lines 188, 234 and 337. -/
structure K8sCR where
  APIVersion : String
  Kind : String
  Metadata : ObjectMeta
  Name : Option String
  Timeouts : Timeouts
  ResourceVersion : Option String
  Finalizer : Option String
  Spec : Option K8sSpec
  Status : Option K8sStatus
  deriving DecidableEq

/-! ## The retry helper's error type -/

/-- `retry.RetryError`. -/
structure RetryError where
  Err : GoError
  Retryable : Bool
  deriving DecidableEq

/-- `retry.RetryableError(err)` for a non-nil `err`. -/
def RetryableError (err : GoError) : RetryError := ⟨err, true⟩

/-- `retry.NonRetryableError(err)` for a non-nil `err`. -/
def NonRetryableError (err : GoError) : RetryError := ⟨err, false⟩

/-! ## Readiness check (`resource.go` lines 470-479) -/

/-- The `for _, condition := range *cr.Status.Conditions` loop of lines 474-478:
`true` when it returns nil from inside the loop, `false` when it falls through.
`*condition.Type` and `*condition.Status` dereference without a nil check, and
`&&` evaluates `*condition.Status` only when the type is "Ready". -/
def conditionsLoop : List Condition → Except Panic Bool
  | [] => .ok false
  | c :: rest =>
    match c.Typ with
    | none => .error .nilDeref
    | some t =>
      if t = "Ready" then
        match c.Status with
        | none => .error .nilDeref
        | some s => if s = "True" then .ok true else conditionsLoop rest
      else conditionsLoop rest

/-- Lines 470-479 of `waitReady`: what the callback returns once the object is
fetched and its resourceVersion is new. `none` is `return nil`. -/
def readinessCheck (cr : K8sCR) : Except Panic (Option RetryError) :=
  match cr.Status with
  | none => .ok (some (RetryableError (.errorf "resource doesn't have 'status.conditions' field")))
  | some st =>
    match st.Conditions with
    | none => .ok (some (RetryableError (.errorf "resource doesn't have 'status.conditions' field")))
    | some cs =>
      match conditionsLoop cs with
      | .error p => .error p
      | .ok true => .ok none
      | .ok false => .ok (some (RetryableError (.errorf "resource is not READY")))

/-- The readiness verdict of lines 470-479: ready exactly when they return nil. -/
def isReady (cr : K8sCR) : Except Panic Bool :=
  match readinessCheck cr with
  | .error p => .error p
  | .ok r => .ok r.isNone

/-! ## The retry helper (`retry.RetryContext`) -/

/-- How the poll loop inside `retry.RetryContext` was left. -/
inductive LoopExit where
  /-- the callback returned nil -/
  | success
  /-- the callback returned a non-retryable error -/
  | quit
  /-- the deadline elapsed -/
  | deadline
  /-- the context was cancelled -/
  | cancelled
  /-- the callback panicked and the polling goroutine closed its channel on the way out -/
  | panicked
  deriving DecidableEq

/-- What a call of `retry.RetryContext` leaves behind: the captured variables of the
callback (`state`), the `error` it returns (`err`), and how the loop was left (`exit`). -/
structure RetryResult (σ : Type) where
  state : σ
  err : Option GoError
  exit : LoopExit

/-- The refresh loop of `retry.RetryContext` (terraform-plugin-sdk/v2 `helper/retry`,
imported at `resource.go` line 13). `resultErr` is the variable of that name in
`RetryContext`: every callback invocation overwrites it with the callback's error.
* callback returns nil: `resultErr = nil`, state "success", the wait ends, nil is returned;
* callback returns a retryable error: `resultErr = rerr.Err`, state "retryableerror",
  the loop polls again;
* callback returns a non-retryable error: `resultErr = rerr.Err`, the loop quits and
  `resultErr` is returned;
* deadline (no polls left): the wait yields a `*TimeoutError`; `RetryContext` returns
  `resultErr` when it is non-nil ("resultErr takes precedence over waitErr") and the
  `*TimeoutError` otherwise.
A panic in the callback is not recovered: `.error p` stands for the process dying of it.
This function follows the runs whose context is not cancelled, and says nothing of what
the caller may still be handed between a panic and the death of the process; both are
covered by `observedLoop`. -/
def retryLoop {σ : Type} (f : σ → Except Panic (σ × Option RetryError)) :
    Nat → σ → Option GoError → Except Panic (RetryResult σ)
  | 0, s, resultErr =>
    match resultErr with
    | none => .ok ⟨s, some .timeoutError, .deadline⟩
    | some e => .ok ⟨s, some e, .deadline⟩
  | n + 1, s, _ =>
    match f s with
    | .error p => .error p
    | .ok (s1, none) => .ok ⟨s1, none, .success⟩
    | .ok (s1, some rerr) =>
      if rerr.Retryable then retryLoop f n s1 (some rerr.Err)
      else .ok ⟨s1, some rerr.Err, .quit⟩

/-- `retry.RetryContext(ctx, timeout, f)` with `timeout` measured in polls, for a `ctx`
that is not cancelled; `RetryContextObserved` takes the cancellation too. -/
def RetryContext {σ : Type} (timeout : Nat) (f : σ → Except Panic (σ × Option RetryError))
    (s : σ) : Except Panic (RetryResult σ) :=
  retryLoop f timeout s none

/-- Cancellation of the `ctx` handed to `retry.RetryContext`: the context is cancelled once
`after` polls have completed, and `ctx.Err()` is then `err`. -/
structure Cancellation where
  after : Nat
  err : GoError
  deriving DecidableEq

/-- The `ctx.Err()` the wait sees when `done` polls have completed, nil while the context
is live. -/
def cancelledAt (cancel : Option Cancellation) (done : Nat) : Option GoError :=
  match cancel with
  | none => none
  | some c => if c.after ≤ done then some c.err else none

/-- What the caller of `retry.RetryContext` is handed, for every way the wait can end.
The first argument counts the polls the deadline still leaves room for, the second the
polls completed. Beyond the cases of `retryLoop`:
* `ctx.Done()`: the wait returns `ctx.Err()`; `RetryContext` returns `resultErr` when it
  is non-nil and `ctx.Err()` otherwise;
* the callback panics: the polling goroutine runs its deferred `close(resCh)`, the wait
  returns on the closed channel and `RetryContext` returns `resultErr` as the earlier
  polls left it (nil on a first poll), before the process dies of the panic; the captured
  variables are as the panicking callback left them (`onPanic`). -/
def observedLoop {σ : Type} (f : σ → Except Panic (σ × Option RetryError)) (onPanic : σ → σ)
    (cancel : Option Cancellation) : Nat → Nat → σ → Option GoError → RetryResult σ
  | 0, done, s, resultErr =>
    match cancelledAt cancel done with
    | some ctxErr => ⟨s, some (resultErr.getD ctxErr), .cancelled⟩
    | none => ⟨s, some (resultErr.getD .timeoutError), .deadline⟩
  | n + 1, done, s, resultErr =>
    match cancelledAt cancel done with
    | some ctxErr => ⟨s, some (resultErr.getD ctxErr), .cancelled⟩
    | none =>
      match f s with
      | .error _ => ⟨onPanic s, resultErr, .panicked⟩
      | .ok (s1, none) => ⟨s1, none, .success⟩
      | .ok (s1, some rerr) =>
        if rerr.Retryable then observedLoop f onPanic cancel n (done + 1) s1 (some rerr.Err)
        else ⟨s1, some rerr.Err, .quit⟩

/-- `retry.RetryContext(ctx, timeout, f)` as its caller observes it, with `timeout`
measured in polls and the cancellation of `ctx`. -/
def RetryContextObserved {σ : Type} (cancel : Option Cancellation) (timeout : Nat)
    (f : σ → Except Panic (σ × Option RetryError)) (onPanic : σ → σ) (s : σ) :
    RetryResult σ :=
  observedLoop f onPanic cancel timeout 0 s none

/-! ## The resource store -/

/-- Outcome of one `client.Get`: an API error, or an object, given by the result of
decoding it into a `K8sCR` (`MarshalJSON` followed by `json.Unmarshal`). -/
abbrev GetResult := Except GoError (Except GoError K8sCR)

/-- A store as the wait loops see it: the outcome of the fetch issued after `n` earlier ones. -/
abbrev Store := Nat → GetResult

/-- `getResource` (lines 434-455) on the outcome of its `Get`. -/
def getResource (g : GetResult) : Except GoError K8sCR :=
  match g with
  | .error err => .error err
  | .ok decoded =>
    match decoded with
    | .error err => .error err
    | .ok manifest => .ok manifest

/-! ## `waitReady` (lines 457-482) -/

/-- Variables the callback of `waitReady` reads and writes: the number of fetches issued
so far and the captured `cr`. -/
structure PollState where
  fetches : Nat
  cr : Option K8sCR
  deriving DecidableEq

/-- One invocation of the callback of `waitReady` (lines 459-480), given what its
`getResource` call returns: the new value of `cr` and the callback's return value. -/
def waitReadyCallback (resourceVersion : String) (fetched : Except GoError K8sCR) :
    Except Panic (Option K8sCR × Option RetryError) :=
  match fetched with
  | .error err => .ok (none, some (RetryableError (.wrapf "getting resource" err)))
  | .ok cr =>
    if cr.Metadata.ResourceVersion = resourceVersion then
      .ok (some cr, some (RetryableError (.errorf "resource is not updated")))
    else
      match readinessCheck cr with
      | .error p => .error p
      | .ok r => .ok (some cr, r)

/-- The callback of `waitReady` as a state-passing function over a store. -/
def waitReadyStep (store : Store) (resourceVersion : String) (s : PollState) :
    Except Panic (PollState × Option RetryError) :=
  match waitReadyCallback resourceVersion (getResource (store s.fetches)) with
  | .error p => .error p
  | .ok (cr, r) => .ok (⟨s.fetches + 1, cr⟩, r)

/-- `waitReady` (lines 457-482): `state.cr` and `err` of the result are the two values it returns. -/
def waitReady (store : Store) (resourceVersion : String) (timeout : Nat) :
    Except Panic (RetryResult PollState) :=
  RetryContext timeout (waitReadyStep store resourceVersion) ⟨0, none⟩

/-- The variables of the callback of `waitReady` as a panic leaves them: the only panics
are the dereferences of line 475, past the fetch and the assignment to `cr` of line 461. -/
def waitReadyPanicState (store : Store) (s : PollState) : PollState :=
  ⟨s.fetches + 1, (getResource (store s.fetches)).toOption⟩

/-- `waitReady` (lines 457-482) as its caller observes it, for every way the wait can end:
`state.cr` and `err` of the result are the two values of line 481. -/
def waitReadyObserved (store : Store) (resourceVersion : String) (timeout : Nat)
    (cancel : Option Cancellation) : RetryResult PollState :=
  RetryContextObserved cancel timeout (waitReadyStep store resourceVersion)
    (waitReadyPanicState store) ⟨0, none⟩

/-! ## Diagnostics of the plugin framework -/

/-- One entry of `resp.Diagnostics`. -/
structure Diagnostic where
  isError : Bool
  summary : String
  detail : String
  deriving DecidableEq

/-- `Diagnostics.HasError()`. -/
def HasError (ds : List Diagnostic) : Bool := ds.any (fun d => d.isError)

/-- `Diagnostics.AddError(summary, detail)`. -/
def AddError (ds : List Diagnostic) (summary detail : String) : List Diagnostic :=
  ds ++ [⟨true, summary, detail⟩]

/-! ## `Delete` (lines 352-411) -/

/-- One invocation of the callback of the deletion wait (lines 391-403) over a store;
the state is the number of fetches issued so far. -/
def waitDeletedStep (store : Store) (fetches : Nat) : Except Panic (Nat × Option RetryError) :=
  match store fetches with
  | .error err =>
    if IsNotFound err then .ok (fetches + 1, none)
    else .ok (fetches + 1, some (NonRetryableError (.wrapf "getting resource" err)))
  | .ok _ => .ok (fetches + 1, some (RetryableError (.errorf "resource still exists")))

/-- The deletion wait of `Delete`: the `retry.RetryContext` call of lines 391-403. -/
def waitDeleted (store : Store) (timeout : Nat) : Except Panic (RetryResult Nat) :=
  RetryContext timeout (waitDeletedStep store) 0

/-- What `Delete` is given: the outcome of the calls it makes into the framework and the store. -/
structure DeleteRequest where
  /-- diagnostics of the three `req.State.GetAttribute` calls (lines 355-360) -/
  stateDiags : List Diagnostic
  /-- `state.Timeouts.Delete(ctx, 5*time.Minute)`, in polls, and its diagnostics (line 366) -/
  deleteTimeout : Nat
  timeoutDiags : List Diagnostic
  /-- error of the client's `Delete` call (lines 378-381) -/
  deleteErr : Option GoError
  store : Store

/-- What `Delete` leaves behind: `resp.Diagnostics` and the number of fetches it issued. -/
structure DeleteResponse where
  Diagnostics : List Diagnostic
  fetches : Nat
  deriving DecidableEq

/-- `Delete` (lines 352-411). -/
def Delete (req : DeleteRequest) : Except Panic DeleteResponse :=
  if HasError req.stateDiags then .ok ⟨req.stateDiags, 0⟩
  else if HasError (req.stateDiags ++ req.timeoutDiags) then
    .ok ⟨req.stateDiags ++ req.timeoutDiags, 0⟩
  else
    match req.deleteErr with
    | some err =>
      .ok ⟨AddError (req.stateDiags ++ req.timeoutDiags) "Delete resource"
        ("Error deleting resource: " ++ err.Error), 0⟩
    | none =>
      match waitDeleted req.store req.deleteTimeout with
      | .error p => .error p
      | .ok r =>
        match r.err with
        | some err =>
          .ok ⟨AddError (req.stateDiags ++ req.timeoutDiags) "Waiting resource deleted"
            ("Error waiting for resource deleted: " ++ err.Error), r.state⟩
        | none => .ok ⟨req.stateDiags ++ req.timeoutDiags, r.state⟩

/-! ## `Create` (lines 120-200) -/

/-- What `Create` is given: the plan as read, and the outcome of the calls it makes into
the framework and the store. -/
structure CreateRequest where
  /-- the plan after lines 125-129: `Spec`, `Name` and `Timeouts` are read -/
  plan : K8sCR
  /-- diagnostics of the three `req.Plan.GetAttribute` calls -/
  planDiags : List Diagnostic
  /-- `plan.Timeouts.Create(ctx, 5*time.Minute)`, in polls, and its diagnostics (line 140) -/
  createTimeout : Nat
  timeoutDiags : List Diagnostic
  /-- `json.Marshal(plan)` (line 147) -/
  marshal : Except GoError String
  /-- the client's `Patch` call (lines 162-165): metadata of `tmpRes`, or an error -/
  patch : Except GoError ObjectMeta
  store : Store
  /-- diagnostics of `resp.State.Set(ctx, cr)` (line 195) -/
  setDiags : K8sCR → List Diagnostic

/-- What `Create` leaves behind: `resp.Diagnostics` and `resp.State` (`none`: not written). -/
structure CreateResponse where
  Diagnostics : List Diagnostic
  State : Option K8sCR
  deriving DecidableEq

/-- Lines 184-192 of `Create`: the fetched object is given the resource version and the
first finalizer of its own metadata, and the name and timeouts of the plan.
`cr.Metadata.Finalizers[0]` is an unchecked index. -/
def populate (plan cr : K8sCR) : Except Panic K8sCR :=
  match cr.Metadata.Finalizers with
  | [] => .error .indexOutOfRange
  | finalizer :: _ =>
    .ok { cr with
          ResourceVersion := some cr.Metadata.ResourceVersion
          Finalizer := some finalizer
          Name := plan.Name
          Timeouts := plan.Timeouts }

/-- `Create` (lines 120-200). -/
def Create (req : CreateRequest) : Except Panic CreateResponse :=
  if HasError req.planDiags then .ok ⟨req.planDiags, none⟩
  else if HasError (req.planDiags ++ req.timeoutDiags) then
    .ok ⟨req.planDiags ++ req.timeoutDiags, none⟩
  else
    match req.marshal with
    | .error err =>
      .ok ⟨AddError (req.planDiags ++ req.timeoutDiags) "marshal resource"
        ("Error marshaling CRD:\n" ++ err.Error), none⟩
    | .ok body =>
      match req.patch with
      | .error err =>
        .ok ⟨AddError (req.planDiags ++ req.timeoutDiags) "Create resource"
          ("Error creating resource: " ++ err.Error ++ "\nBody:\n" ++ body), none⟩
      | .ok tmpRes =>
        match waitReady req.store tmpRes.ResourceVersion req.createTimeout with
        | .error p => .error p
        | .ok r =>
          match r.err with
          | some err =>
            .ok ⟨AddError (req.planDiags ++ req.timeoutDiags) "Waiting resource READY"
              ("Error waiting for resource READY state: " ++ err.Error), none⟩
          | none =>
            match r.state.cr with
            | none => .error .nilDeref
            | some cr =>
              match populate req.plan cr with
              | .error p => .error p
              | .ok cr1 =>
                if HasError (req.planDiags ++ req.timeoutDiags ++ req.setDiags cr1) then
                  .ok ⟨req.planDiags ++ req.timeoutDiags ++ req.setDiags cr1, none⟩
                else
                  .ok ⟨req.planDiags ++ req.timeoutDiags ++ req.setDiags cr1, some cr1⟩

/-! ## `Read` (lines 204-246) -/

/-- What `Read` is given: the prior state as read, and the outcome of the calls it makes
into the framework and the store. -/
structure ReadRequest where
  /-- the state after lines 207-211: `Spec`, `Name` and `Timeouts` are read -/
  state : K8sCR
  /-- diagnostics of the three `req.State.GetAttribute` calls -/
  stateDiags : List Diagnostic
  /-- the `Get` inside `getResource` (line 221) -/
  get : GetResult
  /-- diagnostics of `resp.State.Set(ctx, &cr)` (line 241) -/
  setDiags : K8sCR → List Diagnostic

/-- What `Read` leaves behind: `resp.Diagnostics` and `resp.State` (`none`: not written). -/
structure ReadResponse where
  Diagnostics : List Diagnostic
  State : Option K8sCR
  deriving DecidableEq

/-- `Read` (lines 204-246). Lines 230-238 are the assignments of `populate`, with the
prior state in the place of the plan. -/
def Read (req : ReadRequest) : Except Panic ReadResponse :=
  if HasError req.stateDiags then
    .ok ⟨AddError req.stateDiags "Get state in read" "Error getting state in read", none⟩
  else
    match getResource req.get with
    | .error err =>
      .ok ⟨AddError req.stateDiags "Get resource"
        ("Error getting resource:\n" ++ err.Error), none⟩
    | .ok cr =>
      match populate req.state cr with
      | .error p => .error p
      | .ok cr1 =>
        if HasError (req.stateDiags ++ req.setDiags cr1) then
          .ok ⟨req.stateDiags ++ req.setDiags cr1, none⟩
        else
          .ok ⟨req.stateDiags ++ req.setDiags cr1, some cr1⟩

/-! ## `Update` (lines 249-349) -/

/-- What `Update` is given: the plan as read, and the outcome of the calls it makes into
the framework and the store. -/
structure UpdateRequest where
  /-- the plan after lines 252-261: `Spec`, `Name`, `Timeouts`, `ResourceVersion` and
  `Finalizer` are read -/
  plan : K8sCR
  /-- diagnostics of the five `req.Plan.GetAttribute` calls -/
  planDiags : List Diagnostic
  /-- `plan.Timeouts.Update(ctx, 5*time.Minute)`, in polls, its `String()` and its
  diagnostics (line 276) -/
  updateTimeout : Nat
  updateTimeoutString : String
  timeoutDiags : List Diagnostic
  /-- `json.Marshal(plan)` (line 283) -/
  marshal : Except GoError String
  /-- error of `unstructuredObj.UnmarshalJSON(body)` (line 293) -/
  unmarshalErr : Option GoError
  /-- the client's `Update` call (lines 302-305): metadata of `tmpRes`, or an error -/
  update : Except GoError ObjectMeta
  store : Store
  /-- diagnostics of `resp.State.Set(ctx, cr)` (line 344) -/
  setDiags : K8sCR → List Diagnostic

/-- What `Update` leaves behind: `resp.Diagnostics` and `resp.State` (`none`: not written). -/
structure UpdateResponse where
  Diagnostics : List Diagnostic
  State : Option K8sCR
  deriving DecidableEq

/-- Lines 331-341 of `Update`: the fetched object is given the resource version of the
plan, the first finalizer of its own metadata, and the name and timeouts of the plan.
`cr.Metadata.Finalizers[0]` is an unchecked index. -/
def populateUpdate (plan cr : K8sCR) : Except Panic K8sCR :=
  match cr.Metadata.Finalizers with
  | [] => .error .indexOutOfRange
  | finalizer :: _ =>
    .ok { cr with
          ResourceVersion := plan.ResourceVersion
          Finalizer := some finalizer
          Name := plan.Name
          Timeouts := plan.Timeouts }

/-- `Update` (lines 249-349). -/
def Update (req : UpdateRequest) : Except Panic UpdateResponse :=
  if HasError req.planDiags then .ok ⟨req.planDiags, none⟩
  else if HasError (req.planDiags ++ req.timeoutDiags) then
    .ok ⟨req.planDiags ++ req.timeoutDiags, none⟩
  else
    match req.marshal with
    | .error err =>
      .ok ⟨AddError (req.planDiags ++ req.timeoutDiags) "marshal resource"
        ("Error marshaling CRD:\n" ++ err.Error), none⟩
    | .ok body =>
      match req.unmarshalErr with
      | some err =>
        .ok ⟨AddError (req.planDiags ++ req.timeoutDiags) "Unmarshal resource"
          ("Error unmarshaling CRD:\n" ++ err.Error), none⟩
      | none =>
        match req.update with
        | .error err =>
          .ok ⟨AddError (req.planDiags ++ req.timeoutDiags) "Update resource"
            ("Error updating resource: " ++ err.Error ++ "\nBody:\n" ++ body), none⟩
        | .ok tmpRes =>
          match waitReady req.store tmpRes.ResourceVersion req.updateTimeout with
          | .error p => .error p
          | .ok r =>
            match r.err with
            | some err =>
              .ok ⟨AddError (req.planDiags ++ req.timeoutDiags) "Waiting resource READY"
                ("Error waiting for resource READY state: " ++ err.Error), none⟩
            | none =>
              match r.state.cr with
              | none =>
                .ok ⟨AddError (req.planDiags ++ req.timeoutDiags) "Get ARN"
                  ("name: " ++ req.plan.Name.getD "" ++ ", timeout: " ++
                    req.updateTimeoutString), none⟩
              | some cr =>
                match populateUpdate req.plan cr with
                | .error p => .error p
                | .ok cr1 =>
                  if HasError (req.planDiags ++ req.timeoutDiags ++ req.setDiags cr1) then
                    .ok ⟨req.planDiags ++ req.timeoutDiags ++ req.setDiags cr1, none⟩
                  else
                    .ok ⟨req.planDiags ++ req.timeoutDiags ++ req.setDiags cr1, some cr1⟩

/-! ## Vocabulary of the statements -/

/-- The type assertion `err.(*retry.TimeoutError)` succeeds. -/
def GoError.isTimeoutError : GoError → Bool
  | .timeoutError => true
  | .timeoutErrorWith _ => true
  | _ => false

/-- The error has the cause as its `%w` operand or as its `LastError`. -/
def GoError.wraps : GoError → GoError → Bool
  | .wrapf _ c, cause => decide (c = cause)
  | .timeoutErrorWith c, cause => decide (c = cause)
  | _, _ => false

/-- The value the captured `cr` of `waitReady` holds once `n` fetches were issued:
nil before the first fetch and after a failed one, else the object of fetch `n`. -/
def lastFetched (store : Store) : Nat → Option K8sCR
  | 0 => none
  | m + 1 =>
    match getResource (store m) with
    | .error _ => none
    | .ok obj => some obj

/-- The READY invariant of the data model: some condition has type "Ready" and status "True". -/
def hasReadyTrue (cr : K8sCR) : Prop :=
  ∃ st cs c, cr.Status = some st ∧ st.Conditions = some cs ∧ c ∈ cs ∧
    c.Typ = some "Ready" ∧ c.Status = some "True"

/-- A bucket object as decoded from the store, with the given resourceVersion,
finalizers and status. -/
def bucket (resourceVersion : String) (finalizers : List String) (status : Option K8sStatus) :
    K8sCR :=
  { APIVersion := "cloud.acme.local/v1", Kind := "Bucket",
    Metadata := ⟨"b", resourceVersion, finalizers⟩,
    Name := none, Timeouts := ⟨none, none, none, none⟩,
    ResourceVersion := none, Finalizer := none, Spec := none, Status := status }

/-- A status carrying exactly the given conditions. -/
def conds (cs : List Condition) : Option K8sStatus := some ⟨none, some cs⟩

/-- The condition `{type: "Ready", status: "True"}`. -/
def readyTrue : Condition := ⟨some "Ready", some "True"⟩

/-- The condition `{type: "Ready", status: "False"}`. -/
def readyFalse : Condition := ⟨some "Ready", some "False"⟩

/-- A store that answers every fetch with the same object. -/
def constStore (obj : K8sCR) : Store := fun _ => .ok (.ok obj)

/-- A store that answers fetch `n` with the `n`-th entry of a script and with
not-found once the script is exhausted. -/
def scriptStore (script : List GetResult) : Store :=
  fun n => script.getD n (.error (.notFound "not found"))

/-- An entry the loop of lines 474-478 passes over without a nil dereference and without
returning: its type is present and, when the type is "Ready", its status is present and
not "True". -/
def skipped (c : Condition) : Prop :=
  ∃ t, c.Typ = some t ∧ (t = "Ready" → ∃ st, c.Status = some st ∧ st ≠ "True")

/-- Fetch `n` of the store makes the callback of `waitReady` return a retryable error:
the loop is to poll again. -/
def pollsAgain (store : Store) (rv : String) (n : Nat) : Prop :=
  ∃ cr cause, waitReadyCallback rv (getResource (store n)) = .ok (cr, some (RetryableError cause))

/-- The end-to-end scenario: the patch response carries resourceVersion "1" and the
finalizer "from-patch"; the store then answers with the stale object, with a new
resourceVersion without status, and with resourceVersion "3", Ready=True and the
finalizers "from-store" and "second". -/
def createScenario : CreateRequest :=
  { plan := { bucket "" [] none with
              Name := some "b", Timeouts := ⟨some "2m", none, none, none⟩,
              Spec := some ⟨"eu"⟩ }
    planDiags := []
    createTimeout := 10
    timeoutDiags := []
    marshal := .ok "body"
    patch := .ok ⟨"b", "1", ["from-patch"]⟩
    store := scriptStore [.ok (.ok (bucket "1" ["from-patch"] none)),
      .ok (.ok (bucket "2" ["from-store"] none)),
      .ok (.ok (bucket "3" ["from-store", "second"] (conds [readyTrue])))]
    setDiags := fun _ => [] }

/-- The state `Create` writes in `createScenario`. -/
def createScenarioState : K8sCR :=
  { bucket "3" ["from-store", "second"] (conds [readyTrue]) with
    ResourceVersion := some "3", Finalizer := some "from-store",
    Name := some "b", Timeouts := ⟨some "2m", none, none, none⟩ }

/-- A create request whose store answers the first fetch with a new, ready object that
carries the given finalizers. -/
def createWith (finalizers : List String) : CreateRequest :=
  { createScenario with store := constStore (bucket "2" finalizers (conds [readyTrue])) }

/-- A read request whose fetch yields a ready object that carries the given finalizers. -/
def readWith (finalizers : List String) : ReadRequest :=
  { state := createScenario.plan
    stateDiags := []
    get := .ok (.ok (bucket "2" finalizers (conds [readyTrue])))
    setDiags := fun _ => [] }

/-- An update request, planned from resource version "1" and finalizer "planned", whose
store answers the first fetch with a new, ready object that carries the given finalizers. -/
def updateWith (finalizers : List String) : UpdateRequest :=
  { plan := { createScenario.plan with
              ResourceVersion := some "1", Finalizer := some "planned" }
    planDiags := []
    updateTimeout := 10
    updateTimeoutString := "2m0s"
    timeoutDiags := []
    marshal := .ok "body"
    unmarshalErr := none
    update := .ok ⟨"b", "1", ["planned"]⟩
    store := constStore (bucket "2" finalizers (conds [readyTrue]))
    setDiags := fun _ => [] }

/-! ## Lemmas on the readiness check and the callbacks -/

theorem conditionsLoop_true_mem (cs : List Condition) (h : conditionsLoop cs = .ok true) :
    ∃ c, c ∈ cs ∧ c.Typ = some "Ready" ∧ c.Status = some "True" := by
  induction cs with
  | nil => simp [conditionsLoop] at h
  | cons c rest ih =>
    unfold conditionsLoop at h
    split at h
    · simp at h
    · rename_i t ht
      split at h
      · rename_i hready
        split at h
        · simp at h
        · rename_i st hst
          split at h
          · rename_i htrue
            exact ⟨c, List.mem_cons_self _ _, by rw [ht, hready], by rw [hst, htrue]⟩
          · obtain ⟨d, hd, h1, h2⟩ := ih h
            exact ⟨d, List.mem_cons_of_mem _ hd, h1, h2⟩
      · obtain ⟨d, hd, h1, h2⟩ := ih h
        exact ⟨d, List.mem_cons_of_mem _ hd, h1, h2⟩

theorem conditionsLoop_skip (c : Condition) (rest : List Condition) (h : skipped c) :
    conditionsLoop (c :: rest) = conditionsLoop rest := by
  obtain ⟨t, ht, hs⟩ := h
  rw [conditionsLoop, ht]
  by_cases hr : t = "Ready"
  · obtain ⟨st, hst, hne⟩ := hs hr
    simp [hr, hst, hne]
  · simp [hr]

theorem conditionsLoop_append_ready (pre post : List Condition)
    (h : ∀ c, c ∈ pre → skipped c) :
    conditionsLoop (pre ++ readyTrue :: post) = .ok true := by
  induction pre with
  | nil => simp [conditionsLoop, readyTrue]
  | cons c rest ih =>
    rw [List.cons_append, conditionsLoop_skip c _ (h c (List.mem_cons_self _ _))]
    exact ih (fun d hd => h d (List.mem_cons_of_mem _ hd))

theorem readinessCheck_some (cr : K8sCR) (rerr : RetryError)
    (h : readinessCheck cr = .ok (some rerr)) : ∃ msg, rerr = RetryableError (.errorf msg) := by
  unfold readinessCheck at h
  split at h
  · simp at h; exact ⟨_, h.symm⟩
  · split at h
    · simp at h; exact ⟨_, h.symm⟩
    · split at h
      · simp at h
      · simp at h
      · simp at h; exact ⟨_, h.symm⟩

theorem waitReadyCallback_cases (rv : String) (fetched : Except GoError K8sCR) :
    (∃ p, waitReadyCallback rv fetched = .error p) ∨
    (∃ obj, fetched = .ok obj ∧ obj.Metadata.ResourceVersion ≠ rv ∧
      readinessCheck obj = .ok none ∧ waitReadyCallback rv fetched = .ok (some obj, none)) ∨
    (∃ cause, waitReadyCallback rv fetched = .ok (fetched.toOption, some (RetryableError cause)) ∧
      cause.isTimeoutError = false) := by
  cases fetched with
  | error err =>
    right; right
    exact ⟨.wrapf "getting resource" err, rfl, rfl⟩
  | ok obj =>
    by_cases hrv : obj.Metadata.ResourceVersion = rv
    · right; right
      exact ⟨.errorf "resource is not updated", by simp [waitReadyCallback, hrv, Except.toOption], rfl⟩
    · cases hc : readinessCheck obj with
      | error p => left; exact ⟨p, by simp [waitReadyCallback, hrv, hc]⟩
      | ok r =>
        cases r with
        | none => right; left; exact ⟨obj, rfl, hrv, hc, by simp [waitReadyCallback, hrv, hc]⟩
        | some rerr =>
          right; right
          obtain ⟨msg, hmsg⟩ := readinessCheck_some obj rerr hc
          exact ⟨.errorf msg, by simp [waitReadyCallback, hrv, hc, hmsg, Except.toOption], rfl⟩

/-! ## Lemmas on the poll loop of `waitReady` -/

theorem waitReadyStep_ok (store : Store) (rv : String) (s : PollState) (cr : Option K8sCR)
    (r : Option RetryError)
    (h : waitReadyCallback rv (getResource (store s.fetches)) = .ok (cr, r)) :
    waitReadyStep store rv s = .ok (⟨s.fetches + 1, cr⟩, r) := by
  simp [waitReadyStep, h]

theorem waitReady_loop_success (store : Store) (rv : String) (obj : K8sCR) :
    ∀ (k n : Nat) (s : PollState) (re : Option GoError), k < n →
      (∀ j, j < k → pollsAgain store rv (s.fetches + j)) →
      waitReadyCallback rv (getResource (store (s.fetches + k))) = .ok (some obj, none) →
      retryLoop (waitReadyStep store rv) n s re =
        .ok ⟨⟨s.fetches + k + 1, some obj⟩, none, .success⟩ := by
  intro k
  induction k with
  | zero =>
    intro n s re hk _ hlast
    obtain ⟨m, rfl⟩ : ∃ m, n = m + 1 := ⟨n - 1, by omega⟩
    rw [Nat.add_zero] at hlast
    simp [retryLoop, waitReadyStep_ok store rv s _ _ hlast]
  | succ k ih =>
    intro n s re hk hpre hlast
    obtain ⟨m, rfl⟩ : ∃ m, n = m + 1 := ⟨n - 1, by omega⟩
    obtain ⟨cr, cause, h0⟩ := hpre 0 (by omega)
    rw [Nat.add_zero] at h0
    have hstep := waitReadyStep_ok store rv s _ _ h0
    have hrec := ih m ⟨s.fetches + 1, cr⟩ (some cause) (by omega)
      (fun j hj => by
        have := hpre (j + 1) (by omega)
        simpa [Nat.add_assoc, Nat.add_comm 1 j] using this)
      (by simpa [Nat.add_assoc, Nat.add_comm 1 k] using hlast)
    simp only [retryLoop, hstep, RetryableError]
    simp only [if_true]
    rw [hrec]
    simp [Nat.add_assoc, Nat.add_comm 1 k]

/-- What every completed run of the poll loop of `waitReady` looks like: it was left on
success at some fetch whose object is kept in `cr`, or at the deadline after a poll for
each unit of `n`, with `cr` and the error those of the last poll. -/
theorem waitReady_loop_inv (store : Store) (rv : String) :
    ∀ (n : Nat) (s : PollState) (re : Option GoError) (r : RetryResult PollState),
      retryLoop (waitReadyStep store rv) n s re = .ok r →
      (r.exit = .success ∧ r.err = none ∧
        ∃ m obj, r.state = ⟨m + 1, some obj⟩ ∧ s.fetches ≤ m ∧ m < s.fetches + n ∧
          waitReadyCallback rv (getResource (store m)) = .ok (some obj, none)) ∨
      (r.exit = .deadline ∧ r.state.fetches = s.fetches + n ∧
        ((n = 0 ∧ r.state = s ∧ r.err = some (re.getD .timeoutError)) ∨
         (∃ m cause, n = m + 1 ∧
            waitReadyCallback rv (getResource (store (s.fetches + m))) =
              .ok (r.state.cr, some (RetryableError cause)) ∧
            r.state.cr = (getResource (store (s.fetches + m))).toOption ∧
            r.err = some cause ∧ cause.isTimeoutError = false))) := by
  intro n
  induction n with
  | zero =>
    intro s re r h
    right
    cases re with
    | none => simp [retryLoop] at h; subst h; simp
    | some e => simp [retryLoop] at h; subst h; simp
  | succ n ih =>
    intro s re r h
    rcases waitReadyCallback_cases rv (getResource (store s.fetches)) with
      ⟨p, hp⟩ | ⟨obj, _, _, _, hcb⟩ | ⟨cause, hcb, hnt⟩
    · simp [retryLoop, waitReadyStep, hp] at h
    · have hstep := waitReadyStep_ok store rv s _ _ hcb
      simp [retryLoop, hstep] at h
      subst h
      left
      exact ⟨rfl, rfl, s.fetches, obj, rfl, Nat.le_refl _, by omega, hcb⟩
    · have hstep := waitReadyStep_ok store rv s _ _ hcb
      simp only [retryLoop, hstep, RetryableError] at h
      simp only [if_true] at h
      rcases ih _ _ r h with ⟨h1, h2, m, obj, h3, h4, h5, h6⟩ | ⟨h1, h2, h3⟩
      · left
        exact ⟨h1, h2, m, obj, h3, by simp at h4; omega, by simp at h5; omega, h6⟩
      · right
        refine ⟨h1, by simp at h2; omega, ?_⟩
        right
        rcases h3 with ⟨hn, hst, herr⟩ | ⟨m, c2, hn, hcb2, hcr2, herr2, hnt2⟩
        · subst hn
          refine ⟨0, cause, rfl, ?_, ?_, ?_, hnt⟩
          · rw [hst]; simpa using hcb
          · rw [hst]; simp
          · simpa using herr
        · subst hn
          refine ⟨m + 1, c2, rfl, ?_, ?_, herr2, hnt2⟩
          · simpa [Nat.add_assoc, Nat.add_comm 1 m] using hcb2
          · simpa [Nat.add_assoc, Nat.add_comm 1 m] using hcr2

theorem waitReadyCallback_success (rv : String) (fetched : Except GoError K8sCR) (obj : K8sCR)
    (h : waitReadyCallback rv fetched = .ok (some obj, none)) :
    fetched = .ok obj ∧ obj.Metadata.ResourceVersion ≠ rv ∧ readinessCheck obj = .ok none := by
  rcases waitReadyCallback_cases rv fetched with ⟨p, hp⟩ | ⟨o, h1, h2, h3, h4⟩ | ⟨c, hc, _⟩
  · rw [hp] at h; simp at h
  · rw [h4] at h
    simp at h
    subst h
    exact ⟨h1, h2, h3⟩
  · rw [hc] at h; simp [RetryableError] at h

theorem waitReadyCallback_ready (rv : String) (obj : K8sCR)
    (hnew : obj.Metadata.ResourceVersion ≠ rv) (hready : isReady obj = .ok true) :
    waitReadyCallback rv (.ok obj) = .ok (some obj, none) := by
  unfold isReady at hready
  cases hc : readinessCheck obj with
  | error p => rw [hc] at hready; simp at hready
  | ok r =>
    rw [hc] at hready
    cases r with
    | none => simp [waitReadyCallback, hnew, hc]
    | some rerr => simp at hready

theorem lastFetched_succ (store : Store) (m : Nat) :
    lastFetched store (m + 1) = (getResource (store m)).toOption := by
  simp only [lastFetched]
  cases getResource (store m) <;> rfl

theorem waitReady_loop_deadline (store : Store) (rv : String) :
    ∀ (n : Nat) (s : PollState) (re : Option GoError),
      (∀ j, j < n → pollsAgain store rv (s.fetches + j)) →
      ∃ r, retryLoop (waitReadyStep store rv) n s re = .ok r ∧ r.exit = .deadline := by
  intro n
  induction n with
  | zero =>
    intro s re _
    cases re with
    | none => exact ⟨_, rfl, rfl⟩
    | some e => exact ⟨_, rfl, rfl⟩
  | succ n ih =>
    intro s re hpre
    obtain ⟨cr, cause, h0⟩ := hpre 0 (by omega)
    rw [Nat.add_zero] at h0
    have hstep := waitReadyStep_ok store rv s _ _ h0
    obtain ⟨r, hr, hexit⟩ := ih ⟨s.fetches + 1, cr⟩ (some cause)
      (fun j hj => by
        have := hpre (j + 1) (by omega)
        simpa [Nat.add_assoc, Nat.add_comm 1 j] using this)
    refine ⟨r, ?_, hexit⟩
    simp only [retryLoop, hstep, RetryableError]
    simp only [if_true]
    exact hr

theorem waitReady_nil_error (store : Store) (rv : String) (timeout : Nat)
    (r : RetryResult PollState) (h : waitReady store rv timeout = .ok r)
    (hnil : r.err = none) :
    ∃ m obj, r.state = ⟨m + 1, some obj⟩ ∧ m < timeout ∧
      getResource (store m) = .ok obj ∧ obj.Metadata.ResourceVersion ≠ rv ∧
      isReady obj = .ok true := by
  rcases waitReady_loop_inv store rv timeout ⟨0, none⟩ none r
      (by simpa [waitReady, RetryContext] using h) with
    ⟨_, _, m, obj, hst, _, hm, hcb⟩ | ⟨_, _, h3⟩
  · obtain ⟨h4, h5, h6⟩ := waitReadyCallback_success rv _ obj hcb
    exact ⟨m, obj, hst, by simpa using hm, h4, h5, by simp [isReady, h6]⟩
  · rcases h3 with ⟨_, _, he⟩ | ⟨_, _, _, _, _, he, _⟩
    · rw [he] at hnil; simp at hnil
    · rw [he] at hnil; simp at hnil

/-! ## Lemmas on what the caller of `waitReady` observes -/

theorem observedLoop_eq_retryLoop {σ : Type} (f : σ → Except Panic (σ × Option RetryError))
    (onPanic : σ → σ) (cancel : Option Cancellation) :
    ∀ (n done : Nat) (s : σ) (re : Option GoError),
      (observedLoop f onPanic cancel n done s re).exit ≠ .panicked →
      (observedLoop f onPanic cancel n done s re).exit ≠ .cancelled →
      retryLoop f n s re = .ok (observedLoop f onPanic cancel n done s re) := by
  intro n
  induction n with
  | zero =>
    intro done s re _ hc
    unfold observedLoop at hc ⊢
    cases hcan : cancelledAt cancel done with
    | some e => simp [hcan] at hc
    | none => cases re <;> simp [retryLoop]
  | succ n ih =>
    intro done s re hp hc
    unfold observedLoop at hp hc ⊢
    cases hcan : cancelledAt cancel done with
    | some e => simp [hcan] at hc
    | none =>
      simp only [hcan] at hp hc ⊢
      cases hf : f s with
      | error p => simp [hf] at hp
      | ok res =>
        obtain ⟨s1, x⟩ := res
        cases x with
        | none => simp [retryLoop, hf]
        | some rerr =>
          simp only [hf] at hp hc ⊢
          by_cases hr : rerr.Retryable = true
          · simp only [hr, if_true] at hp hc ⊢
            simp only [retryLoop, hf, hr, if_true]
            exact ih (done + 1) s1 (some rerr.Err) hp hc
          · simp [retryLoop, hf, hr]

theorem retryLoop_ok_observed {σ : Type} (f : σ → Except Panic (σ × Option RetryError))
    (onPanic : σ → σ) :
    ∀ (n done : Nat) (s : σ) (re : Option GoError) (r : RetryResult σ),
      retryLoop f n s re = .ok r → observedLoop f onPanic none n done s re = r := by
  intro n
  induction n with
  | zero =>
    intro done s re r h
    cases re <;> simp [retryLoop] at h <;> subst h <;> simp [observedLoop, cancelledAt]
  | succ n ih =>
    intro done s re r h
    unfold observedLoop
    simp only [cancelledAt]
    cases hf : f s with
    | error p => simp [retryLoop, hf] at h
    | ok res =>
      obtain ⟨s1, x⟩ := res
      cases x with
      | none => simp [retryLoop, hf] at h; subst h; rfl
      | some rerr =>
        by_cases hr : rerr.Retryable = true
        · simp only [retryLoop, hf, hr, if_true] at h
          simp only [hr, if_true]
          exact ih (done + 1) s1 (some rerr.Err) r h
        · simp [retryLoop, hf, hr] at h
          subst h
          simp [hr]

theorem waitReadyStep_state (store : Store) (rv : String) (s s1 : PollState)
    (x : Option RetryError) (h : waitReadyStep store rv s = .ok (s1, x)) :
    s1 = waitReadyPanicState store s := by
  unfold waitReadyStep at h
  rcases waitReadyCallback_cases rv (getResource (store s.fetches)) with
    ⟨p, hp⟩ | ⟨obj, hfetched, _, _, hcb⟩ | ⟨cause, hcb, _⟩
  · simp [hp] at h
  · simp [hcb] at h
    rw [← h.1]
    simp [waitReadyPanicState, hfetched, Except.toOption]
  · simp [hcb] at h
    rw [← h.1]
    rfl

theorem waitReadyStep_panic_fetched (store : Store) (rv : String) (s : PollState) (p : Panic)
    (h : waitReadyStep store rv s = .error p) :
    ∃ obj, getResource (store s.fetches) = .ok obj := by
  cases hg : getResource (store s.fetches) with
  | error err => simp [waitReadyStep, hg, waitReadyCallback] at h
  | ok obj => exact ⟨obj, rfl⟩

theorem waitReadyPanicState_cr (store : Store) (s : PollState) :
    (waitReadyPanicState store s).cr =
      lastFetched store (waitReadyPanicState store s).fetches := by
  simp [waitReadyPanicState, lastFetched_succ]

theorem waitReady_observed_cr (store : Store) (rv : String) (cancel : Option Cancellation) :
    ∀ (n done : Nat) (s : PollState) (re : Option GoError),
      s.cr = lastFetched store s.fetches →
      (observedLoop (waitReadyStep store rv) (waitReadyPanicState store) cancel n done s re).state.cr
        = lastFetched store
          (observedLoop (waitReadyStep store rv) (waitReadyPanicState store) cancel
            n done s re).state.fetches := by
  intro n
  induction n with
  | zero =>
    intro done s re hs
    unfold observedLoop
    cases cancelledAt cancel done <;> exact hs
  | succ n ih =>
    intro done s re hs
    unfold observedLoop
    cases cancelledAt cancel done with
    | some e => exact hs
    | none =>
      simp only
      cases hf : waitReadyStep store rv s with
      | error p => exact waitReadyPanicState_cr store s
      | ok res =>
        obtain ⟨s1, x⟩ := res
        have hs1 := waitReadyStep_state store rv s s1 x hf
        cases x with
        | none => simp only; rw [hs1]; exact waitReadyPanicState_cr store s
        | some rerr =>
          simp only
          by_cases hr : rerr.Retryable = true
          · simp only [hr, if_true]
            exact ih (done + 1) s1 (some rerr.Err)
              (by rw [hs1]; exact waitReadyPanicState_cr store s)
          · simp only [hr]
            rw [hs1]
            exact waitReadyPanicState_cr store s

theorem waitReady_observed_nil_error (store : Store) (rv : String)
    (cancel : Option Cancellation) :
    ∀ (n done : Nat) (s : PollState) (re : Option GoError),
      (observedLoop (waitReadyStep store rv) (waitReadyPanicState store) cancel
        n done s re).err = none →
      ∃ obj, (observedLoop (waitReadyStep store rv) (waitReadyPanicState store) cancel
        n done s re).state.cr = some obj := by
  intro n
  induction n with
  | zero =>
    intro done s re h
    unfold observedLoop at h
    cases hcan : cancelledAt cancel done <;> simp [hcan] at h
  | succ n ih =>
    intro done s re h
    unfold observedLoop at h ⊢
    cases hcan : cancelledAt cancel done with
    | some e => simp [hcan] at h
    | none =>
      simp only [hcan] at h ⊢
      cases hf : waitReadyStep store rv s with
      | error p =>
        obtain ⟨obj, hobj⟩ := waitReadyStep_panic_fetched store rv s p hf
        exact ⟨obj, by simp [waitReadyPanicState, hobj, Except.toOption]⟩
      | ok res =>
        obtain ⟨s1, x⟩ := res
        cases x with
        | none =>
          simp only
          unfold waitReadyStep at hf
          rcases waitReadyCallback_cases rv (getResource (store s.fetches)) with
            ⟨p, hp⟩ | ⟨obj, _, _, _, hcb⟩ | ⟨cause, hcb, _⟩
          · simp [hp] at hf
          · simp [hcb] at hf
            exact ⟨obj, by rw [← hf]⟩
          · simp [hcb, RetryableError] at hf
        | some rerr =>
          simp only [hf] at h ⊢
          by_cases hr : rerr.Retryable = true
          · simp only [hr, if_true] at h ⊢
            exact ih (done + 1) s1 (some rerr.Err) h
          · simp [hr] at h

theorem waitReadyStep_retryable (store : Store) (rv : String) (s s1 : PollState)
    (rerr : RetryError) (h : waitReadyStep store rv s = .ok (s1, some rerr)) :
    rerr.Retryable = true := by
  unfold waitReadyStep at h
  rcases waitReadyCallback_cases rv (getResource (store s.fetches)) with
    ⟨p, hp⟩ | ⟨obj, _, _, _, hcb⟩ | ⟨cause, hcb, _⟩
  · simp [hp] at h
  · simp [hcb] at h
  · simp [hcb] at h
    rw [← h.2]
    rfl

theorem waitReady_observed_never_quit (store : Store) (rv : String)
    (cancel : Option Cancellation) :
    ∀ (n done : Nat) (s : PollState) (re : Option GoError),
      (observedLoop (waitReadyStep store rv) (waitReadyPanicState store) cancel
        n done s re).exit ≠ .quit := by
  intro n
  induction n with
  | zero =>
    intro done s re
    unfold observedLoop
    cases cancelledAt cancel done <;> simp
  | succ n ih =>
    intro done s re
    unfold observedLoop
    cases cancelledAt cancel done with
    | some e => simp
    | none =>
      simp only
      cases hf : waitReadyStep store rv s with
      | error p => simp
      | ok res =>
        obtain ⟨s1, x⟩ := res
        cases x with
        | none => simp
        | some rerr =>
          have hr := waitReadyStep_retryable store rv s s1 rerr hf
          simp only [hr, if_true]
          exact ih (done + 1) s1 (some rerr.Err)

/-! ## Lemmas on the poll loop of the deletion wait -/

theorem HasError_append_left (ds es : List Diagnostic) (h : HasError (ds ++ es) = false) :
    HasError ds = false := by
  simp [HasError, List.any_append] at h ⊢
  exact h.1

theorem waitDeleted_loop_skip (store : Store) :
    ∀ (k n s : Nat) (re : Option GoError), k ≤ n →
      (∀ j, j < k → ∃ o, store (s + j) = .ok o) →
      retryLoop (waitDeletedStep store) n s re =
        retryLoop (waitDeletedStep store) (n - k) (s + k)
          (if k = 0 then re else some (.errorf "resource still exists")) := by
  intro k
  induction k with
  | zero => intro n s re _ _; simp
  | succ k ih =>
    intro n s re hk hpre
    obtain ⟨m, rfl⟩ : ∃ m, n = m + 1 := ⟨n - 1, by omega⟩
    obtain ⟨o, ho⟩ := hpre 0 (by omega)
    rw [Nat.add_zero] at ho
    have hstep : waitDeletedStep store s =
        .ok (s + 1, some (RetryableError (.errorf "resource still exists"))) := by
      simp [waitDeletedStep, ho]
    have hrec := ih m (s + 1) (some (.errorf "resource still exists")) (by omega)
      (fun j hj => by
        have := hpre (j + 1) (by omega)
        simpa [Nat.add_assoc, Nat.add_comm 1 j] using this)
    simp only [retryLoop, hstep, RetryableError]
    simp only [if_true]
    rw [hrec]
    have e1 : m + 1 - (k + 1) = m - k := by omega
    have e2 : s + 1 + k = s + (k + 1) := by omega
    rw [e1, e2]
    by_cases hk0 : k = 0
    · simp [hk0]
    · simp [hk0]

/-! ## The readiness check: what holds, and where it panics -/

/-- The readiness check on objects whose entries ahead of a Ready/True entry are passed
over cleanly: false without status, false without conditions, false for the single
condition Ready/False, true when a Ready/True entry follows entries that are `skipped`
(whatever comes after it); and a verdict of true always comes from a Ready/True entry. -/
theorem isReady_on_clean_entries :
    (∀ cr : K8sCR, cr.Status = none → isReady cr = .ok false) ∧
    (∀ (cr : K8sCR) (st : K8sStatus), cr.Status = some st → st.Conditions = none →
      isReady cr = .ok false) ∧
    (∀ rv fin, isReady (bucket rv fin (conds [readyFalse])) = .ok false) ∧
    (∀ rv fin (pre post : List Condition), (∀ c, c ∈ pre → skipped c) →
      isReady (bucket rv fin (conds (pre ++ readyTrue :: post))) = .ok true) ∧
    (∀ cr : K8sCR, isReady cr = .ok true → hasReadyTrue cr) := by
  refine ⟨?_, ?_, ?_, ?_, ?_⟩
  · intro cr h
    simp [isReady, readinessCheck, h]
  · intro cr st h1 h2
    simp [isReady, readinessCheck, h1, h2]
  · intro rv fin
    simp [isReady, readinessCheck, bucket, conds, conditionsLoop, readyFalse]
  · intro rv fin pre post h
    simp [isReady, readinessCheck, bucket, conds, conditionsLoop_append_ready pre post h]
  · intro cr h
    unfold isReady readinessCheck at h
    split at h
    · simp at h
    · rename_i r hr
      split at hr
      · simp at hr; subst hr; simp at h
      · rename_i st hst
        split at hr
        · simp at hr; subst hr; simp at h
        · rename_i cs hcs
          split at hr
          · simp at hr
          · rename_i hloop
            obtain ⟨c, hc, h1, h2⟩ := conditionsLoop_true_mem cs hloop
            exact ⟨st, cs, c, hst, hcs, hc, h1, h2⟩
          · simp at hr; subst hr; simp at h

/-- C1 (divergence): the conditions `[{status: "True"}, {type: "Ready", status: "True"}]`
contain a Ready/True entry, so the claim asks for true; the loop dereferences the missing
type of the first entry and panics instead of returning. -/
theorem isReady_panics_before_ready_entry :
    hasReadyTrue (bucket "2" [] (conds [⟨none, some "True"⟩, readyTrue])) ∧
    isReady (bucket "2" [] (conds [⟨none, some "True"⟩, readyTrue])) = .error .nilDeref ∧
    isReady (bucket "2" [] (conds [⟨none, some "True"⟩, readyTrue])) ≠ .ok true := by
  refine ⟨⟨_, _, readyTrue, rfl, rfl, by simp, rfl, rfl⟩, rfl, ?_⟩
  intro h
  have h2 : isReady (bucket "2" [] (conds [⟨none, some "True"⟩, readyTrue])) =
      .error .nilDeref := rfl
  rw [h2] at h
  cases h

/-- C2 (divergence): on a condition whose type is missing, and on a condition of type
"Ready" whose status is missing, the readiness check panics on a nil dereference; it
reports neither "ready" nor "not ready". -/
theorem isReady_panics_on_missing_field :
    isReady (bucket "2" [] (conds [⟨none, some "False"⟩])) = .error .nilDeref ∧
    isReady (bucket "2" [] (conds [⟨some "Ready", none⟩])) = .error .nilDeref ∧
    isReady (bucket "2" [] (conds [⟨some "Available", none⟩])) = .ok false :=
  ⟨rfl, rfl, rfl⟩

/-! ## `waitReady`: success -/

/-- When fetch `k` (counting from 0) lies within the deadline, yields a new and ready
object, and every earlier poll ended in a retryable error, `waitReady` returns exactly
that object with a nil error after `k + 1` fetches. -/
theorem waitReady_succeeds_at_first_ready (store : Store) (rv : String) (timeout k : Nat)
    (obj : K8sCR) (hk : k < timeout)
    (hearlier : ∀ j, j < k → pollsAgain store rv j)
    (hfetch : getResource (store k) = .ok obj)
    (hnew : obj.Metadata.ResourceVersion ≠ rv) (hready : isReady obj = .ok true) :
    waitReady store rv timeout = .ok ⟨⟨k + 1, some obj⟩, none, .success⟩ := by
  have h := waitReady_loop_success store rv obj k timeout ⟨0, none⟩ none hk
    (fun j hj => by simpa using hearlier j hj)
    (by simpa [hfetch] using waitReadyCallback_ready rv obj hnew hready)
  simpa [waitReady, RetryContext] using h

/-- The scenario of the specification: a new resourceVersion without status on fetch 1,
a new resourceVersion with Ready=True on fetch 2; `waitReady` returns the fetch-2 object. -/
theorem waitReady_returns_second_fetch :
    waitReady (scriptStore [.ok (.ok (bucket "2" ["f"] none)),
        .ok (.ok (bucket "3" ["f"] (conds [readyTrue])))]) "1" 5 =
      .ok ⟨⟨2, some (bucket "3" ["f"] (conds [readyTrue]))⟩, none, .success⟩ :=
  rfl

/-- C3 (divergence): fetch 1 yields a new resourceVersion with conditions `[{status: "False"}]`
(not ready: no Ready/True entry), fetch 2 a new resourceVersion with Ready=True, both
within the deadline. The claim asks for success with the fetch-2 object; the callback
panics on the missing type during the first poll and `waitReady` never returns. -/
theorem waitReady_panics_before_ready_fetch :
    ¬ hasReadyTrue (bucket "2" ["f"] (conds [⟨none, some "False"⟩])) ∧
    isReady (bucket "3" ["f"] (conds [readyTrue])) = .ok true ∧
    waitReady (scriptStore [.ok (.ok (bucket "2" ["f"] (conds [⟨none, some "False"⟩]))),
        .ok (.ok (bucket "3" ["f"] (conds [readyTrue])))]) "1" 5 = .error .nilDeref := by
  refine ⟨?_, rfl, rfl⟩
  rintro ⟨st, cs, c, h1, h2, h3, h4, _⟩
  simp [bucket, conds] at h1
  subst h1
  simp at h2
  subst h2
  simp at h3
  subst h3
  simp at h4

/-! ## `waitReady`: the deadline -/

/-- C4 (counterexample): the store answers every fetch with the previous resourceVersion
(and Ready=True); with a deadline that leaves room for one poll only, `waitReady` is left
at the deadline having issued a single fetch, not two. -/
theorem waitReady_stale_one_poll :
    ∃ r, waitReady (constStore (bucket "1" ["f"] (conds [readyTrue]))) "1" 1 = .ok r ∧
      r.exit = .deadline ∧ r.state.fetches = 1 ∧ ¬ 2 ≤ r.state.fetches :=
  ⟨⟨⟨1, some (bucket "1" ["f"] (conds [readyTrue]))⟩,
      some (.errorf "resource is not updated"), .deadline⟩, rfl, rfl, rfl, by decide⟩

/-- C4 (amended): when every fetch until the deadline yields an object with the previous
resourceVersion, whatever its conditions, `waitReady` completes, leaves the loop at the
deadline (not on success, not on a non-retryable error) with a non-nil error, and has
issued one fetch per poll the deadline leaves room for: at least 2 when there is room for 2. -/
theorem waitReady_stale_times_out (store : Store) (rv : String) (timeout : Nat)
    (hstale : ∀ j, j < timeout →
      ∃ obj, getResource (store j) = .ok obj ∧ obj.Metadata.ResourceVersion = rv) :
    ∃ r, waitReady store rv timeout = .ok r ∧ r.exit = .deadline ∧ r.exit ≠ .quit ∧
      r.exit ≠ .success ∧ r.err ≠ none ∧ r.state.fetches = timeout ∧
      (1 ≤ timeout → r.err = some (.errorf "resource is not updated")) ∧
      (2 ≤ timeout → 2 ≤ r.state.fetches) := by
  have hstep : ∀ j, j < timeout → waitReadyCallback rv (getResource (store j)) =
      .ok ((getResource (store j)).toOption,
        some (RetryableError (.errorf "resource is not updated"))) := by
    intro j hj
    obtain ⟨obj, h1, h2⟩ := hstale j hj
    simp [h1, waitReadyCallback, h2, Except.toOption]
  obtain ⟨r, hr, hexit⟩ := waitReady_loop_deadline store rv timeout ⟨0, none⟩ none
    (fun j hj => ⟨_, _, by simpa using hstep j hj⟩)
  refine ⟨r, by simpa [waitReady, RetryContext] using hr, hexit, by simp [hexit],
    by simp [hexit], ?_⟩
  rcases waitReady_loop_inv store rv timeout ⟨0, none⟩ none r hr with
    ⟨h1, _⟩ | ⟨_, hf, h3⟩
  · rw [hexit] at h1; cases h1
  · simp at hf
    rcases h3 with ⟨h0, _, herr⟩ | ⟨m, cause, hm, hcb, _, herr, _⟩
    · subst h0
      exact ⟨by simp [herr], hf, by omega, by omega⟩
    · have hcb2 := hstep m (by omega)
      simp at hcb
      rw [hcb2] at hcb
      simp [RetryableError] at hcb
      refine ⟨by simp [herr], hf, ?_, fun h => by omega⟩
      intro _
      rw [herr, ← hcb.2]

/-- C4 (witness): three polls against a store that keeps answering with the previous
resourceVersion and Ready=True. -/
theorem waitReady_stale_times_out_witness :
    ∃ r, waitReady (constStore (bucket "1" ["f"] (conds [readyTrue]))) "1" 3 = .ok r ∧
      r.exit = .deadline ∧ r.exit ≠ .quit ∧ r.exit ≠ .success ∧ r.err ≠ none ∧
      r.state.fetches = 3 ∧
      (1 ≤ 3 → r.err = some (.errorf "resource is not updated")) ∧
      (2 ≤ 3 → 2 ≤ r.state.fetches) :=
  waitReady_stale_times_out (constStore (bucket "1" ["f"] (conds [readyTrue]))) "1" 3
    (fun _ _ => ⟨_, rfl, rfl⟩)

/-! ## `waitReady`: classification of the callback's outcomes -/

/-- The callback of `waitReady` never returns a non-retryable error, and the four causes
it names are retryable: a failed fetch, an unchanged resourceVersion, a missing status
or conditions field, and a conditions loop that falls through. -/
theorem waitReadyCallback_never_fatal :
    (∀ rv fetched cr rerr, waitReadyCallback rv fetched = .ok (cr, some rerr) →
      rerr.Retryable = true) ∧
    (∀ rv err, waitReadyCallback rv (.error err) =
      .ok (none, some (RetryableError (.wrapf "getting resource" err)))) ∧
    (∀ rv (obj : K8sCR), obj.Metadata.ResourceVersion = rv →
      waitReadyCallback rv (.ok obj) =
        .ok (some obj, some (RetryableError (.errorf "resource is not updated")))) ∧
    (∀ rv (obj : K8sCR), obj.Metadata.ResourceVersion ≠ rv →
      (obj.Status = none ∨ ∃ st, obj.Status = some st ∧ st.Conditions = none) →
      waitReadyCallback rv (.ok obj) = .ok (some obj, some (RetryableError
        (.errorf "resource doesn't have 'status.conditions' field")))) ∧
    (∀ rv (obj : K8sCR) st cs, obj.Metadata.ResourceVersion ≠ rv → obj.Status = some st →
      st.Conditions = some cs → conditionsLoop cs = .ok false →
      waitReadyCallback rv (.ok obj) =
        .ok (some obj, some (RetryableError (.errorf "resource is not READY")))) := by
  refine ⟨?_, ?_, ?_, ?_, ?_⟩
  · intro rv fetched cr rerr h
    rcases waitReadyCallback_cases rv fetched with ⟨p, hp⟩ | ⟨o, _, _, _, h4⟩ | ⟨c, hc, _⟩
    · rw [hp] at h; simp at h
    · rw [h4] at h; simp at h
    · rw [hc] at h
      simp at h
      rw [← h.2]
      rfl
  · intro rv err
    rfl
  · intro rv obj h
    simp [waitReadyCallback, h]
  · intro rv obj hnew h
    rcases h with h | ⟨st, h1, h2⟩
    · simp [waitReadyCallback, hnew, readinessCheck, h]
    · simp [waitReadyCallback, hnew, readinessCheck, h1, h2]
  · intro rv obj st cs hnew h1 h2 h3
    simp [waitReadyCallback, hnew, readinessCheck, h1, h2, h3]

/-- C5 (divergence): a poll that fetches a new resourceVersion whose conditions are
`[{type: "Ready"}]` (status missing, hence not ready) ends neither in success nor in a
retryable error: the callback panics on the nil dereference. -/
theorem waitReadyCallback_panics_on_missing_status :
    waitReadyCallback "1" (.ok (bucket "2" ["f"] (conds [⟨some "Ready", none⟩]))) =
      .error .nilDeref ∧
    ¬ hasReadyTrue (bucket "2" ["f"] (conds [⟨some "Ready", none⟩])) := by
  refine ⟨rfl, ?_⟩
  rintro ⟨st, cs, c, h1, h2, h3, _, h5⟩
  simp [bucket, conds] at h1
  subst h1
  simp at h2
  subst h2
  simp at h3
  subst h3
  simp at h5

/-! ## `waitReady`: what is returned at the deadline -/

/-- C6 (counterexample): after two polls that both saw the previous resourceVersion the
loop is left at the deadline, and the error returned is the last cause itself,
"resource is not updated": it is no timeout error and wraps nothing. A callback that
tags the same cause non-retryable makes `RetryContext` return the very same error. -/
theorem waitReady_deadline_error_is_bare_cause :
    waitReady (constStore (bucket "1" ["f"] none)) "1" 2 =
      .ok ⟨⟨2, some (bucket "1" ["f"] none)⟩,
        some (.errorf "resource is not updated"), .deadline⟩ ∧
    (GoError.errorf "resource is not updated").isTimeoutError = false ∧
    (GoError.errorf "resource is not updated").wraps (.errorf "resource is not updated") = false ∧
    (RetryContext 2 (fun (s : Unit) =>
        .ok (s, some (NonRetryableError (.errorf "resource is not updated")))) ()).map
      (fun r => (r.err, r.exit)) =
      .ok (some (.errorf "resource is not updated"), .quit) :=
  ⟨rfl, rfl, rfl, rfl⟩

/-- C6 (amended): when the wait of `waitReady` is left because the deadline elapsed, one
fetch was issued per poll; with at least one poll the error returned is exactly the
retryable cause of the last poll, which is no timeout error; with no poll it is a timeout
error without cause. Whatever the deadline and the cancellation, the wait of `waitReady`
is never left on a non-retryable error. -/
theorem waitReady_deadline_error_is_last_cause (store : Store) (rv : String) (timeout : Nat)
    (cancel : Option Cancellation)
    (hexit : (waitReadyObserved store rv timeout cancel).exit = .deadline) :
    (waitReadyObserved store rv timeout cancel).state.fetches = timeout ∧
    (timeout = 0 → (waitReadyObserved store rv timeout cancel).err = some .timeoutError) ∧
    (∀ m, timeout = m + 1 → ∃ cr cause,
      waitReadyCallback rv (getResource (store m)) = .ok (cr, some (RetryableError cause)) ∧
      (waitReadyObserved store rv timeout cancel).err = some cause ∧
      cause.isTimeoutError = false) ∧
    (∀ (timeout1 : Nat) (cancel1 : Option Cancellation),
      (waitReadyObserved store rv timeout1 cancel1).exit ≠ .quit) := by
  have hloop := observedLoop_eq_retryLoop (waitReadyStep store rv) (waitReadyPanicState store)
    cancel timeout 0 ⟨0, none⟩ none
    (by
      have h := hexit
      simp only [waitReadyObserved, RetryContextObserved] at h
      rw [h]; simp)
    (by
      have h := hexit
      simp only [waitReadyObserved, RetryContextObserved] at h
      rw [h]; simp)
  have hquit : ∀ (timeout1 : Nat) (cancel1 : Option Cancellation),
      (waitReadyObserved store rv timeout1 cancel1).exit ≠ .quit := fun t c =>
    waitReady_observed_never_quit store rv c t 0 ⟨0, none⟩ none
  rcases waitReady_loop_inv store rv timeout ⟨0, none⟩ none _ hloop with
    ⟨h1, _⟩ | ⟨_, hf, h3⟩
  · have h := hexit
    simp only [waitReadyObserved, RetryContextObserved] at h
    rw [h] at h1
    cases h1
  · simp only [Nat.zero_add] at hf
    refine ⟨hf, ?_, ?_, hquit⟩
    · intro h0
      rcases h3 with ⟨_, _, he⟩ | ⟨m, _, hm, _⟩
      · simpa using he
      · omega
    · intro m hm
      rcases h3 with ⟨h0, _⟩ | ⟨m2, cause, hm2, hcb, _, he, hnt⟩
      · omega
      · have : m2 = m := by omega
        subst this
        exact ⟨_, cause, by simpa using hcb, he, hnt⟩

/-- C6 (witness): two polls, a failed fetch and then a new resourceVersion without status;
the error returned at the deadline is the cause of the second poll. -/
theorem waitReady_deadline_error_is_last_cause_witness :
    (waitReadyObserved (scriptStore [.error (.other "connection refused"),
      .ok (.ok (bucket "2" ["f"] none))]) "1" 2 none).exit = .deadline ∧
    (waitReadyObserved (scriptStore [.error (.other "connection refused"),
      .ok (.ok (bucket "2" ["f"] none))]) "1" 2 none).err =
      some (.errorf "resource doesn't have 'status.conditions' field") ∧
    ((waitReadyObserved (scriptStore [.error (.other "connection refused"),
        .ok (.ok (bucket "2" ["f"] none))]) "1" 2 none).state.fetches = 2 ∧
      (2 = 0 → (waitReadyObserved (scriptStore [.error (.other "connection refused"),
        .ok (.ok (bucket "2" ["f"] none))]) "1" 2 none).err = some .timeoutError) ∧
      (∀ m, 2 = m + 1 → ∃ cr cause,
        waitReadyCallback "1" (getResource (scriptStore [.error (.other "connection refused"),
          .ok (.ok (bucket "2" ["f"] none))] m)) = .ok (cr, some (RetryableError cause)) ∧
        (waitReadyObserved (scriptStore [.error (.other "connection refused"),
          .ok (.ok (bucket "2" ["f"] none))]) "1" 2 none).err = some cause ∧
        cause.isTimeoutError = false) ∧
      (∀ (timeout1 : Nat) (cancel1 : Option Cancellation),
        (waitReadyObserved (scriptStore [.error (.other "connection refused"),
          .ok (.ok (bucket "2" ["f"] none))]) "1" timeout1 cancel1).exit ≠ .quit)) :=
  ⟨rfl, rfl,
    waitReady_deadline_error_is_last_cause
      (scriptStore [.error (.other "connection refused"), .ok (.ok (bucket "2" ["f"] none))])
      "1" 2 none rfl⟩

/-! ## `waitReady`: the returned pair -/

/-- C7 (counterexample): one poll that sees the previous resourceVersion; `waitReady`
returns a non-nil error together with a non-nil object, the stale one it fetched. -/
theorem waitReady_error_with_object :
    ∃ r, waitReady (constStore (bucket "1" ["f"] none)) "1" 1 = .ok r ∧
      r.err ≠ none ∧ r.state.cr ≠ none :=
  ⟨⟨⟨1, some (bucket "1" ["f"] none)⟩, some (.errorf "resource is not updated"), .deadline⟩,
    rfl, by simp, by simp⟩

/-- C7 (amended): for every way `waitReady` can hand a pair to its caller, deadline,
cancellation and panic included: whenever the error is nil the object is non-nil; and,
whatever the error, the object is what the last fetch issued left in `cr`: nil if no
fetch was issued or the last one failed, the object that fetch yielded otherwise. -/
theorem waitReady_object_is_last_fetched (store : Store) (rv : String) (timeout : Nat)
    (cancel : Option Cancellation) :
    ((waitReadyObserved store rv timeout cancel).err = none →
      ∃ obj, (waitReadyObserved store rv timeout cancel).state.cr = some obj) ∧
    (waitReadyObserved store rv timeout cancel).state.cr =
      lastFetched store (waitReadyObserved store rv timeout cancel).state.fetches :=
  ⟨waitReady_observed_nil_error store rv cancel timeout 0 ⟨0, none⟩ none,
    waitReady_observed_cr store rv cancel timeout 0 ⟨0, none⟩ none rfl⟩

/-- C7 (witness): the first poll fetches a new resourceVersion whose only condition has no
type and the callback panics; the caller can be handed a nil error with that object,
which is not ready. -/
theorem waitReady_object_is_last_fetched_witness :
    (waitReadyObserved (constStore (bucket "2" ["f"] (conds [⟨none, some "False"⟩])))
      "1" 5 none).err = none ∧
    (waitReadyObserved (constStore (bucket "2" ["f"] (conds [⟨none, some "False"⟩])))
      "1" 5 none).exit = .panicked ∧
    (waitReadyObserved (constStore (bucket "2" ["f"] (conds [⟨none, some "False"⟩])))
      "1" 5 none).state.cr = some (bucket "2" ["f"] (conds [⟨none, some "False"⟩])) ∧
    ((∃ obj, (waitReadyObserved (constStore (bucket "2" ["f"] (conds [⟨none, some "False"⟩])))
        "1" 5 none).state.cr = some obj) ∧
      (waitReadyObserved (constStore (bucket "2" ["f"] (conds [⟨none, some "False"⟩])))
        "1" 5 none).state.cr =
        lastFetched (constStore (bucket "2" ["f"] (conds [⟨none, some "False"⟩])))
          (waitReadyObserved (constStore (bucket "2" ["f"] (conds [⟨none, some "False"⟩])))
            "1" 5 none).state.fetches) :=
  ⟨rfl, rfl, rfl,
    (waitReady_object_is_last_fetched (constStore (bucket "2" ["f"] (conds [⟨none, some "False"⟩])))
      "1" 5 none).1 rfl,
    (waitReady_object_is_last_fetched (constStore (bucket "2" ["f"] (conds [⟨none, some "False"⟩])))
      "1" 5 none).2⟩

/-- Every pair `waitReady` returns without a panic and without cancellation is among the
pairs its caller observes. -/
theorem waitReady_ok_observed (store : Store) (rv : String) (timeout : Nat)
    (r : RetryResult PollState) (h : waitReady store rv timeout = .ok r) :
    waitReadyObserved store rv timeout none = r :=
  retryLoop_ok_observed (waitReadyStep store rv) (waitReadyPanicState store) timeout 0
    ⟨0, none⟩ none r (by simpa [waitReady, RetryContext] using h)

/-- A cancelled context: before any poll the caller gets `ctx.Err()` and a nil object;
after a poll it gets that poll's cause and the object it fetched. -/
theorem waitReady_cancelled :
    (waitReadyObserved (constStore (bucket "1" ["f"] none)) "1" 5
        (some ⟨0, .other "context canceled"⟩)).err = some (.other "context canceled") ∧
    (waitReadyObserved (constStore (bucket "1" ["f"] none)) "1" 5
        (some ⟨0, .other "context canceled"⟩)).state = ⟨0, none⟩ ∧
    (waitReadyObserved (constStore (bucket "1" ["f"] none)) "1" 5
        (some ⟨1, .other "context canceled"⟩)).err = some (.errorf "resource is not updated") ∧
    (waitReadyObserved (constStore (bucket "1" ["f"] none)) "1" 5
        (some ⟨1, .other "context canceled"⟩)).state = ⟨1, some (bucket "1" ["f"] none)⟩ :=
  ⟨rfl, rfl, rfl, rfl⟩

/-! ## The deletion wait -/

/-- C8: when the store reports the object present on the first `n` fetches and not-found
on fetch `n + 1`, all within the deadline, the deletion wait is left on success with a
nil error after exactly `n + 1` fetches, and `Delete` adds no diagnostic. -/
theorem delete_wait_succeeds_on_not_found (req : DeleteRequest) (n : Nat) (err : GoError)
    (hdiags : HasError (req.stateDiags ++ req.timeoutDiags) = false)
    (hdelete : req.deleteErr = none)
    (hpresent : ∀ j, j < n → ∃ o, req.store j = .ok o)
    (hgone : req.store n = .error err) (hnotFound : IsNotFound err = true)
    (hdeadline : n < req.deleteTimeout) :
    waitDeleted req.store req.deleteTimeout = .ok ⟨n + 1, none, .success⟩ ∧
    Delete req = .ok ⟨req.stateDiags ++ req.timeoutDiags, n + 1⟩ := by
  have hwait : waitDeleted req.store req.deleteTimeout = .ok ⟨n + 1, none, .success⟩ := by
    unfold waitDeleted RetryContext
    rw [waitDeleted_loop_skip req.store n req.deleteTimeout 0 none (by omega)
      (fun j hj => by simpa using hpresent j hj)]
    obtain ⟨m, hm⟩ : ∃ m, req.deleteTimeout - n = m + 1 :=
      ⟨req.deleteTimeout - n - 1, by omega⟩
    rw [hm]
    simp [retryLoop, waitDeletedStep, hgone, hnotFound]
  refine ⟨hwait, ?_⟩
  have h1 : HasError req.stateDiags = false := HasError_append_left _ _ hdiags
  simp [Delete, h1, hdiags, hdelete, hwait]

/-- C8 (witness): present on three fetches, not-found on the fourth, deadline of ten polls. -/
theorem delete_wait_succeeds_on_not_found_witness :
    waitDeleted (scriptStore [.ok (.ok (bucket "1" ["f"] none)),
        .ok (.ok (bucket "1" ["f"] none)), .ok (.ok (bucket "1" ["f"] none))]) 10 =
      .ok ⟨3 + 1, none, .success⟩ ∧
    Delete ⟨[], 10, [], none, scriptStore [.ok (.ok (bucket "1" ["f"] none)),
        .ok (.ok (bucket "1" ["f"] none)), .ok (.ok (bucket "1" ["f"] none))]⟩ =
      .ok ⟨[] ++ [], 3 + 1⟩ :=
  delete_wait_succeeds_on_not_found
    ⟨[], 10, [], none, scriptStore [.ok (.ok (bucket "1" ["f"] none)),
      .ok (.ok (bucket "1" ["f"] none)), .ok (.ok (bucket "1" ["f"] none))]⟩
    3 (.notFound "not found") rfl rfl
    (fun j hj => by
      have h : j = 0 ∨ j = 1 ∨ j = 2 := by omega
      rcases h with h | h | h <;> subst h <;> exact ⟨_, rfl⟩)
    rfl rfl (by decide)

/-- C9: when a fetch within the deadline fails with an error other than not-found (after
any number of fetches that found the object), the callback of the deletion wait tags it
non-retryable, the loop is left at once with that error and no further fetch, and
`Delete` reports an error diagnostic; the callback of `waitReady` tags a fetch that
fails with the same error retryable. -/
theorem delete_wait_fatal_on_other_error (req : DeleteRequest) (n : Nat) (err : GoError)
    (hdiags : HasError (req.stateDiags ++ req.timeoutDiags) = false)
    (hdelete : req.deleteErr = none)
    (hpresent : ∀ j, j < n → ∃ o, req.store j = .ok o)
    (hfail : req.store n = .error err) (hother : IsNotFound err = false)
    (hdeadline : n < req.deleteTimeout) :
    waitDeletedStep req.store n =
      .ok (n + 1, some (NonRetryableError (.wrapf "getting resource" err))) ∧
    waitDeleted req.store req.deleteTimeout =
      .ok ⟨n + 1, some (.wrapf "getting resource" err), .quit⟩ ∧
    Delete req = .ok ⟨AddError (req.stateDiags ++ req.timeoutDiags) "Waiting resource deleted"
      ("Error waiting for resource deleted: " ++ (GoError.wrapf "getting resource" err).Error),
      n + 1⟩ ∧
    HasError (AddError (req.stateDiags ++ req.timeoutDiags) "Waiting resource deleted"
      ("Error waiting for resource deleted: " ++
        (GoError.wrapf "getting resource" err).Error)) = true ∧
    (∀ rv, waitReadyCallback rv (getResource (.error err)) =
      .ok (none, some (RetryableError (.wrapf "getting resource" err)))) := by
  have hstep : waitDeletedStep req.store n =
      .ok (n + 1, some (NonRetryableError (.wrapf "getting resource" err))) := by
    simp [waitDeletedStep, hfail, hother]
  have hwait : waitDeleted req.store req.deleteTimeout =
      .ok ⟨n + 1, some (.wrapf "getting resource" err), .quit⟩ := by
    unfold waitDeleted RetryContext
    rw [waitDeleted_loop_skip req.store n req.deleteTimeout 0 none (by omega)
      (fun j hj => by simpa using hpresent j hj)]
    obtain ⟨m, hm⟩ : ∃ m, req.deleteTimeout - n = m + 1 :=
      ⟨req.deleteTimeout - n - 1, by omega⟩
    rw [hm]
    simp [retryLoop, waitDeletedStep, hfail, hother, NonRetryableError]
  have h1 : HasError req.stateDiags = false := HasError_append_left _ _ hdiags
  refine ⟨hstep, hwait, ?_, ?_, fun rv => rfl⟩
  · simp [Delete, h1, hdiags, hdelete, hwait]
  · simp [HasError, AddError]

/-- C9 (witness): a generic error on the first fetch, deadline of ten polls. -/
theorem delete_wait_fatal_on_other_error_witness :
    waitDeletedStep (scriptStore [.error (.other "connection refused")]) 0 =
      .ok (0 + 1, some (NonRetryableError
        (.wrapf "getting resource" (.other "connection refused")))) ∧
    waitDeleted (scriptStore [.error (.other "connection refused")]) 10 =
      .ok ⟨0 + 1, some (.wrapf "getting resource" (.other "connection refused")), .quit⟩ ∧
    Delete ⟨[], 10, [], none, scriptStore [.error (.other "connection refused")]⟩ =
      .ok ⟨AddError ([] ++ []) "Waiting resource deleted"
        ("Error waiting for resource deleted: " ++
          (GoError.wrapf "getting resource" (.other "connection refused")).Error), 0 + 1⟩ ∧
    HasError (AddError ([] ++ []) "Waiting resource deleted"
      ("Error waiting for resource deleted: " ++
        (GoError.wrapf "getting resource" (.other "connection refused")).Error)) = true ∧
    (∀ rv, waitReadyCallback rv (getResource (.error (.other "connection refused"))) =
      .ok (none, some (RetryableError
        (.wrapf "getting resource" (.other "connection refused"))))) :=
  delete_wait_fatal_on_other_error
    ⟨[], 10, [], none, scriptStore [.error (.other "connection refused")]⟩
    0 (.other "connection refused") rfl rfl (fun j hj => absurd hj (by omega)) rfl rfl
    (by decide)

/-! ## `Create` -/

theorem populate_ok (plan cr st : K8sCR) (h : populate plan cr = .ok st) :
    ∃ finalizer rest, cr.Metadata.Finalizers = finalizer :: rest ∧
      st = { cr with
             ResourceVersion := some cr.Metadata.ResourceVersion
             Finalizer := some finalizer
             Name := plan.Name
             Timeouts := plan.Timeouts } := by
  unfold populate at h
  split at h
  · simp at h
  · rename_i finalizer rest hfin
    simp at h
    exact ⟨finalizer, rest, hfin, h.symm⟩

/-- When the binding layer raises no error, the patch is accepted, fetch `k` within the
deadline is the first that is not retried and yields a new, ready object with at least one
finalizer, `Create` completes and writes that object as state, with `resource_version`
and `finalizer` from the object's own metadata and name and timeouts from the plan. -/
theorem create_succeeds (req : CreateRequest) (body : String) (tmpRes : ObjectMeta) (k : Nat)
    (obj : K8sCR) (finalizer : String) (rest : List String)
    (hdiags : HasError (req.planDiags ++ req.timeoutDiags) = false)
    (hmarshal : req.marshal = .ok body) (hpatch : req.patch = .ok tmpRes)
    (hk : k < req.createTimeout)
    (hearlier : ∀ j, j < k → pollsAgain req.store tmpRes.ResourceVersion j)
    (hfetch : getResource (req.store k) = .ok obj)
    (hnew : obj.Metadata.ResourceVersion ≠ tmpRes.ResourceVersion)
    (hready : isReady obj = .ok true)
    (hfin : obj.Metadata.Finalizers = finalizer :: rest)
    (hset : HasError (req.planDiags ++ req.timeoutDiags ++ req.setDiags
      { obj with
        ResourceVersion := some obj.Metadata.ResourceVersion
        Finalizer := some finalizer
        Name := req.plan.Name
        Timeouts := req.plan.Timeouts }) = false) :
    Create req = .ok ⟨req.planDiags ++ req.timeoutDiags ++ req.setDiags
      { obj with
        ResourceVersion := some obj.Metadata.ResourceVersion
        Finalizer := some finalizer
        Name := req.plan.Name
        Timeouts := req.plan.Timeouts },
      some { obj with
        ResourceVersion := some obj.Metadata.ResourceVersion
        Finalizer := some finalizer
        Name := req.plan.Name
        Timeouts := req.plan.Timeouts }⟩ := by
  have hwait := waitReady_succeeds_at_first_ready req.store tmpRes.ResourceVersion
    req.createTimeout k obj hk hearlier hfetch hnew hready
  have h1 : HasError req.planDiags = false := HasError_append_left _ _ hdiags
  have hpop : populate req.plan obj = .ok
      { obj with
        ResourceVersion := some obj.Metadata.ResourceVersion
        Finalizer := some finalizer
        Name := req.plan.Name
        Timeouts := req.plan.Timeouts } := by
    simp [populate, hfin]
  simp only [Create, h1, hdiags, hmarshal, hpatch, hwait, hpop, hset]
  simp

/-- C10: whenever `Create` completes and writes state, the patch was accepted and the
poller was left on success at its last fetch, whose object has a resourceVersion other
than the patch response's and is ready; the state written has `resource_version` equal
to that object's resourceVersion (hence not the patch response's), `finalizer` equal to
the first of that object's finalizers, metadata and status of that object, and name and
timeouts of the plan; no error diagnostic is raised. -/
theorem create_state_from_final_fetch (req : CreateRequest) (resp : CreateResponse)
    (st : K8sCR) (h : Create req = .ok resp) (hst : resp.State = some st) :
    ∃ tmpRes r obj finalizer rest,
      req.patch = .ok tmpRes ∧
      waitReady req.store tmpRes.ResourceVersion req.createTimeout = .ok r ∧
      r.err = none ∧ r.state.cr = some obj ∧
      lastFetched req.store r.state.fetches = some obj ∧
      obj.Metadata.ResourceVersion ≠ tmpRes.ResourceVersion ∧ isReady obj = .ok true ∧
      obj.Metadata.Finalizers = finalizer :: rest ∧
      st.ResourceVersion = some obj.Metadata.ResourceVersion ∧
      st.ResourceVersion ≠ some tmpRes.ResourceVersion ∧
      st.Finalizer = some finalizer ∧
      st.Name = req.plan.Name ∧ st.Timeouts = req.plan.Timeouts ∧
      st.Metadata = obj.Metadata ∧ st.Status = obj.Status ∧
      HasError resp.Diagnostics = false := by
  unfold Create at h
  split at h
  · simp at h; subst h; simp at hst
  split at h
  · simp at h; subst h; simp at hst
  split at h
  · simp at h; subst h; simp at hst
  split at h
  · simp at h; subst h; simp at hst
  rename_i tmpRes hpatch
  split at h
  · simp at h
  rename_i r hwait
  split at h
  · simp at h; subst h; simp at hst
  rename_i herr
  split at h
  · simp at h
  rename_i cr hcr
  split at h
  · simp at h
  rename_i cr1 hpop
  split at h
  · simp at h; subst h; simp at hst
  rename_i hnoerr
  simp at h
  subst h
  simp at hst
  subst hst
  obtain ⟨finalizer, rest, hfin, hcr1⟩ := populate_ok _ _ _ hpop
  obtain ⟨m, obj, hstate, _, hfetch, hnew, hready⟩ := waitReady_nil_error _ _ _ r hwait herr
  have hobj : cr = obj := by
    rw [hstate] at hcr
    simpa using hcr.symm
  subst hobj
  refine ⟨tmpRes, r, cr, finalizer, rest, hpatch, hwait, herr, hcr, ?_, hnew, hready, hfin,
    ?_, ?_, ?_, ?_, ?_, ?_, ?_, ?_⟩
  · rw [hstate]
    simp only [lastFetched_succ, hfetch]
    rfl
  · rw [hcr1]
  · rw [hcr1]
    simpa using hnew
  · rw [hcr1]
  · rw [hcr1]
  · rw [hcr1]
  · rw [hcr1]
  · rw [hcr1]
  · simpa using hnoerr

/-- C10 (witness): in `createScenario` the state comes from the third fetch: resource
version "3" and finalizer "from-store", not "1" and "from-patch" of the patch response. -/
theorem create_state_from_final_fetch_witness :
    Create createScenario = .ok ⟨[], some createScenarioState⟩ ∧
    ∃ tmpRes r obj finalizer rest,
      createScenario.patch = .ok tmpRes ∧
      waitReady createScenario.store tmpRes.ResourceVersion createScenario.createTimeout =
        .ok r ∧
      r.err = none ∧ r.state.cr = some obj ∧
      lastFetched createScenario.store r.state.fetches = some obj ∧
      obj.Metadata.ResourceVersion ≠ tmpRes.ResourceVersion ∧ isReady obj = .ok true ∧
      obj.Metadata.Finalizers = finalizer :: rest ∧
      createScenarioState.ResourceVersion = some obj.Metadata.ResourceVersion ∧
      createScenarioState.ResourceVersion ≠ some tmpRes.ResourceVersion ∧
      createScenarioState.Finalizer = some finalizer ∧
      createScenarioState.Name = createScenario.plan.Name ∧
      createScenarioState.Timeouts = createScenario.plan.Timeouts ∧
      createScenarioState.Metadata = obj.Metadata ∧
      createScenarioState.Status = obj.Status ∧
      HasError (⟨[], some createScenarioState⟩ : CreateResponse).Diagnostics = false :=
  ⟨rfl, create_state_from_final_fetch createScenario ⟨[], some createScenarioState⟩
    createScenarioState rfl rfl⟩

/-! ## The finalizer in `Create`, `Read` and `Update` -/

theorem waitReady_returned_object_ready (store : Store) (rv : String) (timeout : Nat)
    (r : RetryResult PollState) (obj : K8sCR) (h : waitReady store rv timeout = .ok r)
    (hnil : r.err = none) (hcr : r.state.cr = some obj) : isReady obj = .ok true := by
  obtain ⟨m, o, hstate, _, _, _, hready⟩ := waitReady_nil_error store rv timeout r h hnil
  rw [hstate] at hcr
  simp at hcr
  subst hcr
  exact hready

/-- C11: in `Create` and `Update`, the object `waitReady` hands over with a nil error is
ready; in `Read` it is whatever object the fetch yields. When that object's finalizers
list is empty, each of the three operations panics with an index out of range: it returns
no response, so it neither writes state nor completes. When the list is `first :: rest`,
each operation completes, and the state it sets has `first` as its finalizer whatever
`rest` is; the state is written unless setting it raises an error diagnostic. -/
theorem finalizer_is_first_or_index_panic :
    (∀ (req : CreateRequest) (body : String) (tmpRes : ObjectMeta)
        (r : RetryResult PollState) (obj : K8sCR),
      HasError (req.planDiags ++ req.timeoutDiags) = false → req.marshal = .ok body →
      req.patch = .ok tmpRes →
      waitReady req.store tmpRes.ResourceVersion req.createTimeout = .ok r →
      r.err = none → r.state.cr = some obj →
      isReady obj = .ok true ∧
      (obj.Metadata.Finalizers = [] → Create req = .error .indexOutOfRange) ∧
      (∀ first rest, obj.Metadata.Finalizers = first :: rest →
        ∃ st, populate req.plan obj = .ok st ∧ st.Finalizer = some first ∧
          Create req = .ok ⟨req.planDiags ++ req.timeoutDiags ++ req.setDiags st,
            if HasError (req.planDiags ++ req.timeoutDiags ++ req.setDiags st) then none
            else some st⟩)) ∧
    (∀ (req : ReadRequest) (obj : K8sCR),
      HasError req.stateDiags = false → getResource req.get = .ok obj →
      (obj.Metadata.Finalizers = [] → Read req = .error .indexOutOfRange) ∧
      (∀ first rest, obj.Metadata.Finalizers = first :: rest →
        ∃ st, populate req.state obj = .ok st ∧ st.Finalizer = some first ∧
          Read req = .ok ⟨req.stateDiags ++ req.setDiags st,
            if HasError (req.stateDiags ++ req.setDiags st) then none else some st⟩)) ∧
    (∀ (req : UpdateRequest) (body : String) (tmpRes : ObjectMeta)
        (r : RetryResult PollState) (obj : K8sCR),
      HasError (req.planDiags ++ req.timeoutDiags) = false → req.marshal = .ok body →
      req.unmarshalErr = none → req.update = .ok tmpRes →
      waitReady req.store tmpRes.ResourceVersion req.updateTimeout = .ok r →
      r.err = none → r.state.cr = some obj →
      isReady obj = .ok true ∧
      (obj.Metadata.Finalizers = [] → Update req = .error .indexOutOfRange) ∧
      (∀ first rest, obj.Metadata.Finalizers = first :: rest →
        ∃ st, populateUpdate req.plan obj = .ok st ∧ st.Finalizer = some first ∧
          Update req = .ok ⟨req.planDiags ++ req.timeoutDiags ++ req.setDiags st,
            if HasError (req.planDiags ++ req.timeoutDiags ++ req.setDiags st) then none
            else some st⟩)) := by
  refine ⟨?_, ?_, ?_⟩
  · intro req body tmpRes r obj hdiags hmarshal hpatch hwait hnil hcr
    have h1 : HasError req.planDiags = false := HasError_append_left _ _ hdiags
    refine ⟨waitReady_returned_object_ready _ _ _ r obj hwait hnil hcr, ?_, ?_⟩
    · intro hfin
      have hpop : populate req.plan obj = .error .indexOutOfRange := by
        simp [populate, hfin]
      simp only [Create, h1, hdiags, hmarshal, hpatch, hwait, hnil, hcr, hpop]
      simp
    · intro first rest hfin
      have hpop : populate req.plan obj = .ok
          { obj with
            ResourceVersion := some obj.Metadata.ResourceVersion
            Finalizer := some first
            Name := req.plan.Name
            Timeouts := req.plan.Timeouts } := by
        simp [populate, hfin]
      refine ⟨_, hpop, rfl, ?_⟩
      simp only [Create, h1, hdiags, hmarshal, hpatch, hwait, hnil, hcr, hpop]
      simp only [Bool.false_eq_true, if_false]
      split <;> rfl
  · intro req obj hdiags hget
    refine ⟨?_, ?_⟩
    · intro hfin
      have hpop : populate req.state obj = .error .indexOutOfRange := by
        simp [populate, hfin]
      simp only [Read, hdiags, hget, hpop]
      simp
    · intro first rest hfin
      have hpop : populate req.state obj = .ok
          { obj with
            ResourceVersion := some obj.Metadata.ResourceVersion
            Finalizer := some first
            Name := req.state.Name
            Timeouts := req.state.Timeouts } := by
        simp [populate, hfin]
      refine ⟨_, hpop, rfl, ?_⟩
      simp only [Read, hdiags, hget, hpop]
      simp only [Bool.false_eq_true, if_false]
      split <;> rfl
  · intro req body tmpRes r obj hdiags hmarshal hunmarshal hupdate hwait hnil hcr
    have h1 : HasError req.planDiags = false := HasError_append_left _ _ hdiags
    refine ⟨waitReady_returned_object_ready _ _ _ r obj hwait hnil hcr, ?_, ?_⟩
    · intro hfin
      have hpop : populateUpdate req.plan obj = .error .indexOutOfRange := by
        simp [populateUpdate, hfin]
      simp only [Update, h1, hdiags, hmarshal, hunmarshal, hupdate, hwait, hnil, hcr, hpop]
      simp
    · intro first rest hfin
      have hpop : populateUpdate req.plan obj = .ok
          { obj with
            ResourceVersion := req.plan.ResourceVersion
            Finalizer := some first
            Name := req.plan.Name
            Timeouts := req.plan.Timeouts } := by
        simp [populateUpdate, hfin]
      refine ⟨_, hpop, rfl, ?_⟩
      simp only [Update, h1, hdiags, hmarshal, hunmarshal, hupdate, hwait, hnil, hcr, hpop]
      simp only [Bool.false_eq_true, if_false]
      split <;> rfl

/-- C11 (witness): with a ready fetched object without finalizers `Create`, `Read` and
`Update` each panic with an index out of range; with the finalizers "first" and "second"
each writes a state whose finalizer is "first". -/
theorem finalizer_is_first_or_index_panic_witness :
    (Create (createWith []) = .error .indexOutOfRange ∧
      Read (readWith []) = .error .indexOutOfRange ∧
      Update (updateWith []) = .error .indexOutOfRange) ∧
    ((∃ st, st.Finalizer = some "first" ∧
        Create (createWith ["first", "second"]) = .ok ⟨[], some st⟩) ∧
      (∃ st, st.Finalizer = some "first" ∧
        Read (readWith ["first", "second"]) = .ok ⟨[], some st⟩) ∧
      (∃ st, st.Finalizer = some "first" ∧
        Update (updateWith ["first", "second"]) = .ok ⟨[], some st⟩)) := by
  obtain ⟨hcreate, hread, hupdate⟩ := finalizer_is_first_or_index_panic
  refine ⟨⟨?_, ?_, ?_⟩, ?_, ?_, ?_⟩
  · exact (hcreate (createWith []) "body" ⟨"b", "1", ["from-patch"]⟩
      ⟨⟨1, some (bucket "2" [] (conds [readyTrue]))⟩, none, .success⟩ _
      rfl rfl rfl rfl rfl rfl).2.1 rfl
  · exact (hread (readWith []) _ rfl rfl).1 rfl
  · exact (hupdate (updateWith []) "body" ⟨"b", "1", ["planned"]⟩
      ⟨⟨1, some (bucket "2" [] (conds [readyTrue]))⟩, none, .success⟩ _
      rfl rfl rfl rfl rfl rfl rfl).2.1 rfl
  · obtain ⟨st, _, hfin, hrun⟩ := (hcreate (createWith ["first", "second"]) "body"
      ⟨"b", "1", ["from-patch"]⟩
      ⟨⟨1, some (bucket "2" ["first", "second"] (conds [readyTrue]))⟩, none, .success⟩ _
      rfl rfl rfl rfl rfl rfl).2.2 "first" ["second"] rfl
    exact ⟨st, hfin, hrun⟩
  · obtain ⟨st, _, hfin, hrun⟩ :=
      (hread (readWith ["first", "second"]) _ rfl rfl).2 "first" ["second"] rfl
    exact ⟨st, hfin, hrun⟩
  · obtain ⟨st, _, hfin, hrun⟩ := (hupdate (updateWith ["first", "second"]) "body"
      ⟨"b", "1", ["planned"]⟩
      ⟨⟨1, some (bucket "2" ["first", "second"] (conds [readyTrue]))⟩, none, .success⟩ _
      rfl rfl rfl rfl rfl rfl rfl).2.2 "first" ["second"] rfl
    exact ⟨st, hfin, hrun⟩

end Acme
